import Mathlib

/-!
# wmtWifi tethering plugin: verification of `tetheringplugin.c`

A shallow embedding of `src/tetheringplugin.c` together with theorems about the
interface registry refresh, the AP-selection predicate and the wait coordinator.

Conventions of the embedding

* A `GHashTable` is an association list; the list order is the iteration order
  of the table. The theorems about `tethering_check_ap` quantify over every
  list, hence over every iteration order.
* A pointer to an external object is represented by the current contents of the
  object. The identity of an interface object is its D-Bus path.
* External calls that acquire or release something are recorded in a log of
  `Op`s, in program order.
* The GLib main loop is driven by a trace: a list of loop iterations, each a
  list of events dispatched during that iteration.
-/

namespace Tethering

/-! ## External objects -/

/-- Properties of the supplicant on which handlers are registered (line 243, 247). -/
inductive GSUPPLICANT_PROPERTY where
  | VALID
  | INTERFACES
  deriving DecidableEq, Repr

/-- Properties of an interface on which handlers are registered (line 152, 156). -/
inductive GSUPPLICANT_INTERFACE_PROPERTY where
  | VALID
  | CAPS
  deriving DecidableEq, Repr

/-- Modelled from the spec: the supplicant handle (`GSupplicant`, declared in
`gsupplicant.h`, not part of the sources). `interfaces` is `none` when the C
pointer `supplicant->interfaces` is `NULL`. -/
structure GSupplicant where
  valid : Bool
  interfaces : Option (List String)
  deriving DecidableEq, Repr

/-- Modelled from the spec: the interface handle (`GSupplicantInterface`,
declared in `gsupplicant_interface.h`, not part of the sources), with a path, a
name, a validity flag and a capability bitset; `caps_modes` is the field
`caps.modes`. The name is a string, as in the spec: a `NULL` name is not
modelled. -/
structure GSupplicantInterface where
  path : String
  ifname : String
  valid : Bool
  caps_modes : Nat
  deriving DecidableEq, Repr

/-! ## Resource log -/

/-- External calls with an effect outside the plugin, in the order they are made. -/
inductive Op where
  /-- Call of `gsupplicant_ref` (line 227) -/
  | supplicant_ref
  /-- Call of `gsupplicant_unref` (line 268) -/
  | supplicant_unref
  /-- Call of `gsupplicant_add_property_changed_handler` (lines 242, 246) -/
  | supplicant_add_handler (id : Nat) (prop : GSUPPLICANT_PROPERTY)
  /-- one handler disconnected by `gsupplicant_remove_all_handlers` (line 262) -/
  | supplicant_remove_handler (id : Nat)
  /-- Call of `gsupplicant_interface_new` (line 149) -/
  | interface_new (path : String)
  /-- Call of `gsupplicant_interface_unref` (line 137) -/
  | interface_unref (path : String)
  /-- Call of `gsupplicant_interface_add_property_changed_handler` (lines 151, 155) -/
  | interface_add_handler (path : String) (id : Nat) (prop : GSUPPLICANT_INTERFACE_PROPERTY)
  /-- one handler disconnected by `gsupplicant_interface_remove_all_handlers` (line 135) -/
  | interface_remove_handler (path : String) (id : Nat)
  /-- Call of `gsupplicant_remove_interface` (line 305) -/
  | remove_interface (path : String)
  /-- Call of `g_timeout_add` (line 237) -/
  | timeout_add (id : Nat)
  /-- the timeout source fired and was removed by `G_SOURCE_REMOVE` (line 105) -/
  | timeout_fired (id : Nat)
  /-- Call of `g_source_remove` (line 259) -/
  | source_remove (id : Nat)
  /-- Call of `g_main_loop_new` (line 236) -/
  | main_loop_new
  /-- Call of `g_main_loop_unref` (line 261) -/
  | main_loop_unref
  deriving DecidableEq, Repr

/-! ## Data model of the plugin -/

/-- Embedding of `TetheringWaitInterface` (lines 88-91): the referenced interface object and
the two handler ids registered on it. -/
structure TetheringWaitInterface where
  supplicant_interface : GSupplicantInterface
  interface_events : Nat × Nat
  deriving DecidableEq, Repr

/-- The table `wait->ifaces`: path ↦ tracked interface, in iteration order. -/
abbrev GHashTable := List (String × TetheringWaitInterface)

/-- Embedding of `TetheringWaitCheckFunc` (lines 74-77): the result, and the paths for which
the predicate called `gsupplicant_remove_interface`, in call order. -/
abbrev TetheringWaitCheckFunc := GHashTable → Bool × List String

/-- Embedding of `GMainLoop`: only the running flag matters. -/
structure GMainLoop where
  is_running : Bool
  deriving DecidableEq, Repr

/-- Embedding of `TetheringWait` (lines 79-86). `wait->supplicant` points to the process-wide
supplicant, kept in `State.tethering_supplicant`. -/
structure TetheringWait where
  timeout_id : Nat
  supplicant_events : Nat × Nat
  ifaces : GHashTable
  loop : GMainLoop
  check : Option TetheringWaitCheckFunc

/-- Program state: the static variables (lines 93, 214), the external objects
they point to, the id allocator of the external libraries, and the log. -/
structure State where
  /-- current contents of `*tethering_supplicant` -/
  tethering_supplicant : GSupplicant
  /-- current contents of the interface object of each path -/
  interfaces : String → GSupplicantInterface
  /-- the static `tethering_waiting` with the contents of the `wait` it points to -/
  tethering_waiting : Option TetheringWait
  /-- last id handed out by `g_timeout_add` or an `add_handler` call -/
  last_id : Nat
  log : List Op

/-- Append external calls to the log. -/
def State.emit (st : State) (ops : List Op) : State :=
  { st with log := st.log ++ ops }

/-- A fresh non-zero id, as returned by `g_timeout_add` and the `add_handler` calls. -/
def State.fresh (st : State) : Nat × State :=
  (st.last_id + 1, { st with last_id := st.last_id + 1 })

/-! ## Hash table operations -/

/-- Embedding of `g_hash_table_contains`. -/
def g_hash_table_contains (t : GHashTable) (key : String) : Bool :=
  t.any (fun e => e.1 == key)

/-- Embedding of `g_hash_table_insert` of a key that is not in the table (guarded at line 187). -/
def g_hash_table_insert (t : GHashTable) (key : String) (v : TetheringWaitInterface) :
    GHashTable :=
  t ++ [(key, v)]

/-- Embedding of `gutil_strv_contains`. -/
def gutil_strv_contains (sv : List String) (s : String) : Bool :=
  sv.any (fun x => x == s)

/-! ## Lines 128-159: tracked interfaces -/

/-- Embedding of `tethering_wifi_interface_free` (lines 128-139): external calls made. -/
def tethering_wifi_interface_free (iface : TetheringWaitInterface) : List Op :=
  [ Op.interface_remove_handler iface.supplicant_interface.path iface.interface_events.1,
    Op.interface_remove_handler iface.supplicant_interface.path iface.interface_events.2,
    Op.interface_unref iface.supplicant_interface.path ]

/-- Embedding of `gsupplicant_interface_new(path)`: the object of that path. -/
def gsupplicant_interface_new (st : State) (path : String) : GSupplicantInterface :=
  { st.interfaces path with path := path }

/-- Embedding of `tethering_wifi_interface_new` (lines 141-159). -/
def tethering_wifi_interface_new (st : State) (path : String) :
    State × TetheringWaitInterface :=
  let i := gsupplicant_interface_new st path
  let st := st.emit [Op.interface_new path]
  let (h0, st) := st.fresh
  let st := st.emit [Op.interface_add_handler path h0 .VALID]
  let (h1, st) := st.fresh
  let st := st.emit [Op.interface_add_handler path h1 .CAPS]
  (st, { supplicant_interface := i, interface_events := (h0, h1) })

/-! ## Lines 161-194: refresh -/

/-- The loop of lines 176-181: entries whose key is not in `ifaces` are removed,
the destroy notifier of the table frees each removed value. -/
def remove_nonexistent (ifaces : List String) : GHashTable → GHashTable × List Op
  | [] => ([], [])
  | e :: t =>
    let (kept, ops) := remove_nonexistent ifaces t
    if !gutil_strv_contains ifaces e.1 then
      (kept, tethering_wifi_interface_free e.2 ++ ops)
    else
      (e :: kept, ops)

/-- The loop of lines 184-191. -/
def add_new : List String → State → GHashTable → State × GHashTable
  | [], st, t => (st, t)
  | path :: rest, st, t =>
    if !g_hash_table_contains t path then
      let (st, iface) := tethering_wifi_interface_new st path
      add_new rest st (g_hash_table_insert t path iface)
    else
      add_new rest st t

/-- Embedding of `tethering_wifi_wait_update_interfaces` (lines 161-194), on `wait->ifaces`. -/
def tethering_wifi_wait_update_interfaces (st : State) (t : GHashTable) :
    State × GHashTable :=
  if st.tethering_supplicant.valid then
    match st.tethering_supplicant.interfaces with
    | some ifaces =>
      let (t, ops) := remove_nonexistent ifaces t
      add_new ifaces (st.emit ops) t
    | none => (st, t)
  else
    (st, t)

/-! ## Lines 272-316: the AP-selection predicate -/

/-- The loop of lines 282-292, from the state `(ap_ifname, all_valid)`. The
condition of the `while` calls `g_hash_table_iter_next` before it tests
`all_valid`, so the loop ends on the empty rest or on `all_valid = FALSE`. -/
def check_ap_scan (AP : Nat) : GHashTable → Option String → Bool → Option String × Bool
  | [], ap_ifname, all_valid => (ap_ifname, all_valid)
  | e :: t, ap_ifname, all_valid =>
    if all_valid then
      let i := e.2.supplicant_interface
      if !i.valid then
        check_ap_scan AP t ap_ifname false
      else if i.caps_modes &&& AP != 0 then
        check_ap_scan AP t (some i.ifname) all_valid
      else
        check_ap_scan AP t ap_ifname all_valid
    else
      (ap_ifname, all_valid)

/-- The loop of lines 296-311: the paths passed to `gsupplicant_remove_interface`. -/
def check_ap_remove (ap_ifname : String) : GHashTable → List String
  | [] => []
  | e :: t =>
    let i := e.2.supplicant_interface
    if i.valid then
      if i.ifname != ap_ifname then
        i.path :: check_ap_remove ap_ifname t
      else
        check_ap_remove ap_ifname t
    else
      check_ap_remove ap_ifname t

/-- Embedding of `tethering_check_ap` (lines 272-316). `AP` is the constant
`GSUPPLICANT_INTERFACE_CAPS_MODES_AP` of `gsupplicant_interface.h`. -/
def tethering_check_ap (AP : Nat) : TetheringWaitCheckFunc := fun ifaces =>
  match check_ap_scan AP ifaces none true with
  | (some ap_ifname, true) => (true, check_ap_remove ap_ifname ifaces)
  | _ => (false, [])

/-! ## Lines 95-126 and 196-207: handlers -/

/-- Embedding of `g_main_loop_quit`. -/
def g_main_loop_quit (_loop : GMainLoop) : GMainLoop :=
  { is_running := false }

/-- Embedding of `tethering_wifi_timeout` (lines 95-106); the source is removed by the
`G_SOURCE_REMOVE` it returns. -/
def tethering_wifi_timeout (st : State) (wait : TetheringWait) : State × TetheringWait :=
  (st.emit [Op.timeout_fired wait.timeout_id],
   { wait with timeout_id := 0, loop := g_main_loop_quit wait.loop })

/-- Embedding of `tethering_wifi_check` (lines 108-116). -/
def tethering_wifi_check (st : State) (wait : TetheringWait) : State × TetheringWait :=
  match wait.check with
  | none => (st, { wait with loop := g_main_loop_quit wait.loop })
  | some check =>
    let r := check wait.ifaces
    let st := st.emit (r.2.map Op.remove_interface)
    if r.1 then (st, { wait with loop := g_main_loop_quit wait.loop }) else (st, wait)

/-- Embedding of `tethering_wifi_interface_event_handler` (lines 118-126). -/
def tethering_wifi_interface_event_handler (st : State) (wait : TetheringWait) :
    State × TetheringWait :=
  tethering_wifi_check st wait

/-- Embedding of `tethering_wifi_supplicant_event_handler` (lines 196-207). -/
def tethering_wifi_supplicant_event_handler (st : State) (wait : TetheringWait) :
    State × TetheringWait :=
  let r := tethering_wifi_wait_update_interfaces st wait.ifaces
  tethering_wifi_check r.1 { wait with ifaces := r.2 }

/-! ## Lines 209-270: the wait coordinator -/

/-- Embedding of `g_hash_table_destroy` (line 267): the destroy notifier frees every value. -/
def g_hash_table_destroy : GHashTable → List Op
  | [] => []
  | e :: t => tethering_wifi_interface_free e.2 ++ g_hash_table_destroy t

/-- Lines 235-252: the wait context is completed, the timeout and the two
supplicant handlers are registered and `tethering_waiting` is set. -/
def tethering_wait_arm (check : TetheringWaitCheckFunc) (ifaces : GHashTable) (st : State) :
    State :=
  let st := st.emit [Op.main_loop_new]
  let (timeout_id, st) := st.fresh
  let st := st.emit [Op.timeout_add timeout_id]
  let (e0, st) := st.fresh
  let st := st.emit [Op.supplicant_add_handler e0 .VALID]
  let (e1, st) := st.fresh
  let st := st.emit [Op.supplicant_add_handler e1 .INTERFACES]
  let wait : TetheringWait :=
    { timeout_id := timeout_id, supplicant_events := (e0, e1), ifaces := ifaces,
      loop := { is_running := true }, check := some check }
  { st with tethering_waiting := some wait }

/-- Lines 254-263, on the `wait` left by the loop. -/
def tethering_wait_disarm (wait : TetheringWait) (st : State) : State :=
  let st := { st with tethering_waiting := none }
  let st := if wait.timeout_id != 0 then st.emit [Op.source_remove wait.timeout_id] else st
  let st := st.emit [Op.main_loop_unref]
  st.emit [Op.supplicant_remove_handler wait.supplicant_events.1,
           Op.supplicant_remove_handler wait.supplicant_events.2]

/-- Lines 266-268. -/
def tethering_wait_cleanup (ifaces : GHashTable) (st : State) : State :=
  (st.emit (g_hash_table_destroy ifaces)).emit [Op.supplicant_unref]

/-- Lines 226-232: the supplicant is referenced, the table is created and
seeded by one refresh. -/
def tethering_wait_seed (st : State) : State × GHashTable :=
  tethering_wifi_wait_update_interfaces (st.emit [Op.supplicant_ref]) []

/-- The condition of line 233 and the state after evaluating it; `check` is
not called when the supplicant is not valid. -/
def tethering_wait_test (check : TetheringWaitCheckFunc) (st : State) (ifaces : GHashTable) :
    Bool × State :=
  if !st.tethering_supplicant.valid then (true, st)
  else
    let k := check ifaces
    (!k.1, st.emit (k.2.map Op.remove_interface))

/-- Lines 254-268, on the state in which the loop returned. The `wait` of the
session is the one `tethering_waiting` points to; the slot is occupied
whenever the loop returns (`g_main_loop_run_inv`), the other branch of the
`match` only makes the function total. -/
def tethering_wait_finish (ifaces : GHashTable) (st : State) : State :=
  let wait : TetheringWait :=
    match st.tethering_waiting with
    | some w => w
    | none => { timeout_id := 0, supplicant_events := (0, 0), ifaces := ifaces,
                loop := { is_running := false }, check := none }
  tethering_wait_cleanup wait.ifaces (tethering_wait_disarm wait st)

/-- Embedding of `tethering_wait` (lines 209-270). `run` is `g_main_loop_run(wait.loop)`: it
takes the state in which the loop is entered to the state in which it returns. -/
def tethering_wait (run : State → State) (check : Option TetheringWaitCheckFunc)
    (st : State) : State :=
  match st.tethering_waiting with
  | some waiting =>
    let waiting := { waiting with check := check }
    let waiting :=
      if check.isNone then { waiting with loop := g_main_loop_quit waiting.loop } else waiting
    { st with tethering_waiting := some waiting }
  | none =>
    match check with
    | none => st
    | some check =>
      let seed := tethering_wait_seed st
      let test := tethering_wait_test check seed.1 seed.2
      if test.1 then
        tethering_wait_finish seed.2 (run (tethering_wait_arm check seed.2 test.2))
      else
        tethering_wait_cleanup seed.2 test.2

/-! ## Lines 318-361: the notifier callback -/

/-- What `open` and `write` on `/dev/wmtWifi` return (lines 324, 327). -/
structure CmdDevNode where
  fd : Int
  written : Int
  deriving DecidableEq, Repr

/-- Embedding of `CMD_AP_MODE` (line 37). -/
def CMD_AP_MODE : Char := 'A'

/-- Embedding of `CMD_STA_MODE` (line 38). -/
def CMD_STA_MODE : Char := 'S'

/-- Embedding of `tethering_command` (lines 318-342). -/
def tethering_command (dev : CmdDevNode) (_cmd : Char) : Bool :=
  if dev.fd ≥ 0 then
    if dev.written = 1 then true else false
  else
    false

/-- Embedding of `tethering_changed_notify` (lines 344-361). -/
def tethering_changed_notify (run : State → State) (AP : Nat) (on_ : Bool) (dev : CmdDevNode)
    (st : State) : State :=
  if on_ then
    if tethering_command dev CMD_AP_MODE then
      tethering_wait run (some (tethering_check_ap AP)) st
    else st
  else
    if tethering_command dev CMD_STA_MODE then
      tethering_wait run none st
    else st

/-! ## The main loop -/

/-- What the main loop can dispatch while a session waits. -/
inductive Event where
  /-- the supplicant now has contents `s`; the handler of `prop` is called -/
  | supplicant_changed (s : GSupplicant) (prop : GSUPPLICANT_PROPERTY)
  /-- the interface object of path `i.path` now has contents `i`; the handlers
  of `prop` registered on that object are called -/
  | interface_changed (i : GSupplicantInterface) (prop : GSUPPLICANT_INTERFACE_PROPERTY)
  /-- the timeout source is ready -/
  | timeout
  /-- the host calls the notifier callback -/
  | tethering_changed (on_ : Bool) (dev : CmdDevNode)
  deriving Repr

/-- The timeout source is dispatched, if it still exists. -/
def dispatch_timeout (st : State) : State :=
  match st.tethering_waiting with
  | some wait =>
    if wait.timeout_id != 0 then
      let r := tethering_wifi_timeout st wait
      { r.1 with tethering_waiting := some r.2 }
    else st
  | none => st

/-- The interface object of path `i.path` takes the contents `i`, also as seen
through the tracked interfaces that reference it. -/
def interface_set (i : GSupplicantInterface) (t : GHashTable) : GHashTable :=
  t.map (fun e =>
    if e.2.supplicant_interface.path = i.path then
      (e.1, { e.2 with supplicant_interface := i })
    else e)

/-- The handler registered by each tracked interface that references the
object of path `path` is called, one after the other. -/
def interface_handlers (path : String) : GHashTable → State → TetheringWait →
    State × TetheringWait
  | [], st, wait => (st, wait)
  | e :: t, st, wait =>
    if e.2.supplicant_interface.path = path then
      let r := tethering_wifi_interface_event_handler st wait
      interface_handlers path t r.1 r.2
    else
      interface_handlers path t st wait

/-- One source is dispatched. The notifier callback called from inside the loop
finds the slot occupied (`dispatch_inv`) and runs no loop of its own; the loop
passed to it, that of a session which gets no event but its timeout, is there
for the call to be well formed. -/
def dispatch (AP : Nat) (ev : Event) (st : State) : State :=
  match ev with
  | .supplicant_changed s _ =>
    let st := { st with tethering_supplicant := s }
    match st.tethering_waiting with
    | some wait =>
      let r := tethering_wifi_supplicant_event_handler st wait
      { r.1 with tethering_waiting := some r.2 }
    | none => st
  | .interface_changed i _ =>
    let st := { st with interfaces := fun p => if p = i.path then i else st.interfaces p }
    match st.tethering_waiting with
    | some wait =>
      let wait := { wait with ifaces := interface_set i wait.ifaces }
      let r := interface_handlers i.path wait.ifaces st wait
      { r.1 with tethering_waiting := some r.2 }
    | none => st
  | .timeout => dispatch_timeout st
  | .tethering_changed on_ dev => tethering_changed_notify dispatch_timeout AP on_ dev st

/-- Whether the loop of the active session is still running. -/
def State.running (st : State) : Bool :=
  match st.tethering_waiting with
  | some wait => wait.loop.is_running
  | none => false

/-- Embedding of `g_main_loop_run(wait.loop)` (line 253) along a trace. Each element of the
trace is one iteration of the loop: its events are all dispatched, then the
running flag is tested. When the trace is used up and the loop still runs, the
timeout is what happens next. -/
def g_main_loop_run (AP : Nat) : List (List Event) → State → State
  | [], st => dispatch_timeout st
  | evs :: rest, st =>
    let st := evs.foldl (fun s e => dispatch AP e s) st
    if st.running then g_main_loop_run AP rest st else st

/-- The notifier callback as the host calls it, with the trace the nested
loop will see. -/
def tethering_changed (AP : Nat) (trace : List (List Event)) (on_ : Bool) (dev : CmdDevNode)
    (st : State) : State :=
  tethering_changed_notify (g_main_loop_run AP trace) AP on_ dev st

/-! ## Resource accounting -/

/-- What the plugin can hold from the external libraries. -/
inductive Res where
  | supplicant_ref
  | supplicant_handler (id : Nat)
  | interface_ref (path : String)
  | interface_handler (path : String) (id : Nat)
  | timeout (id : Nat)
  | main_loop
  deriving DecidableEq, Repr

/-- The resource a call acquires. -/
def Op.acquires : Op → Option Res
  | .supplicant_ref => some .supplicant_ref
  | .supplicant_add_handler id _ => some (.supplicant_handler id)
  | .interface_new path => some (.interface_ref path)
  | .interface_add_handler path id _ => some (.interface_handler path id)
  | .timeout_add id => some (.timeout id)
  | .main_loop_new => some .main_loop
  | _ => none

/-- The resource a call releases. A timeout source is released when it fires
and returns `G_SOURCE_REMOVE`, or by `g_source_remove`. -/
def Op.releases : Op → Option Res
  | .supplicant_unref => some .supplicant_ref
  | .supplicant_remove_handler id => some (.supplicant_handler id)
  | .interface_unref path => some (.interface_ref path)
  | .interface_remove_handler path id => some (.interface_handler path id)
  | .timeout_fired id => some (.timeout id)
  | .source_remove id => some (.timeout id)
  | .main_loop_unref => some .main_loop
  | _ => none

/-- How many times `r` is held after one more call; `none` once something was
released that was not held. -/
def held_step (r : Res) (n : Option Nat) (op : Op) : Option Nat :=
  match n with
  | none => none
  | some k =>
    if op.acquires = some r then some (k + 1)
    else if op.releases = some r then (if k = 0 then none else some (k - 1))
    else some k

/-- How many times `r` is held after the calls of `log`, starting from `n`. -/
def held_from (r : Res) (n : Option Nat) (log : List Op) : Option Nat :=
  log.foldl (held_step r) n

/-- How many times `r` is held after the calls of `log`: `some 0` says that
every acquisition of `r` was followed by exactly one release of it and that
nothing was released without being held. -/
def held (r : Res) (log : List Op) : Option Nat :=
  held_from r (some 0) log

/-- Calls made while the loop dispatches a change notification: on interface
objects, and removal requests. -/
def Op.in_loop : Op → Bool
  | .interface_new _ => true
  | .interface_unref _ => true
  | .interface_add_handler _ _ _ => true
  | .interface_remove_handler _ _ => true
  | .remove_interface _ => true
  | _ => false

/-- Calls about the timeout source. -/
def Op.is_timeout : Op → Bool
  | .timeout_add _ => true
  | .timeout_fired _ => true
  | .source_remove _ => true
  | _ => false

/-- What one tracked interface holds. -/
def entry_res (iface : TetheringWaitInterface) : List Res :=
  [ Res.interface_ref iface.supplicant_interface.path,
    Res.interface_handler iface.supplicant_interface.path iface.interface_events.1,
    Res.interface_handler iface.supplicant_interface.path iface.interface_events.2 ]

/-- What the table holds. -/
def registry_res : GHashTable → List Res
  | [] => []
  | e :: t => entry_res e.2 ++ registry_res t

/-- What a waiting session holds besides its table. -/
def session_res (wait : TetheringWait) : List Res :=
  [ Res.supplicant_ref, Res.main_loop,
    Res.supplicant_handler wait.supplicant_events.1,
    Res.supplicant_handler wait.supplicant_events.2 ] ++
  (if wait.timeout_id != 0 then [Res.timeout wait.timeout_id] else [])

/-- The calls appended to the log by a piece of code that takes the table from
`t` to `t'`: only calls of the kind made inside the loop, and they acquire and
release exactly the difference between what the two tables hold. -/
def Emits (log log' : List Op) (t t' : GHashTable) : Prop :=
  ∃ ops, log' = log ++ ops ∧ (∀ op ∈ ops, op.in_loop = true) ∧
    ∀ r n, held_from r (some ((registry_res t).count r + n)) ops =
      some ((registry_res t').count r + n)

/-- A step made on the wait context while the session waits: the calls are of
the kind made inside the loop and match the change of the table, the timeout id
and the supplicant handler ids are kept, and a loop that was asked to quit
stays so. -/
def LoopStep (log : List Op) (wait : TetheringWait) (log' : List Op)
    (wait' : TetheringWait) : Prop :=
  Emits log log' wait.ifaces wait'.ifaces ∧ wait'.timeout_id = wait.timeout_id ∧
  wait'.supplicant_events = wait.supplicant_events ∧
  (wait'.loop.is_running = true → wait.loop.is_running = true)

/-- What holds of every state inside the loop of a session that started with
the log `base` and whose timeout got the id `tid`: the session occupies the
slot; it holds exactly what its context records; the timeout was added once,
and it has fired exactly when the context has a zero `timeout_id`, in which
case the loop was asked to quit. -/
def WaitInv (base : List Op) (tid : Nat) (st : State) : Prop :=
  ∃ wait delta, st.tethering_waiting = some wait ∧ st.log = base ++ delta ∧
    (∀ r, held r delta = some ((session_res wait ++ registry_res wait.ifaces).count r)) ∧
    tid ≠ 0 ∧
    ((wait.timeout_id = tid ∧ delta.filter Op.is_timeout = [Op.timeout_add tid]) ∨
     (wait.timeout_id = 0 ∧ wait.loop.is_running = false ∧
        delta.filter Op.is_timeout = [Op.timeout_add tid, Op.timeout_fired tid]))

/-! ## The handling of a change notification, in the words of the specification -/

/-- Two valid interfaces with the same name; the one at `/b` is AP-capable. -/
def same_name_ifaces : GHashTable :=
  [ ("/a", { supplicant_interface :=
               { path := "/a", ifname := "wlan0", valid := true, caps_modes := 1 },
             interface_events := (1, 2) }),
    ("/b", { supplicant_interface :=
               { path := "/b", ifname := "wlan0", valid := true, caps_modes := 4 },
             interface_events := (3, 4) }) ]

/-- Interface objects: `/a` is AP-capable and named `ap0`, every other path is
a station interface named `wlan0`; all are valid. -/
def two_interfaces : String → GSupplicantInterface := fun p =>
  if p = "/a" then { path := p, ifname := "ap0", valid := true, caps_modes := 4 }
  else { path := p, ifname := "wlan0", valid := true, caps_modes := 1 }

/-- The idle state with a valid supplicant that lists `/a` and `/b`. -/
def two_interfaces_state : State :=
  { tethering_supplicant := { valid := true, interfaces := some ["/a", "/b"] },
    interfaces := two_interfaces, tethering_waiting := none, last_id := 0, log := [] }

/-- The idle state with a supplicant that is not valid. -/
def invalid_supplicant_state : State :=
  { tethering_supplicant := { valid := false, interfaces := none },
    interfaces := two_interfaces, tethering_waiting := none, last_id := 0, log := [] }

/-- A table that tracks `/b` only. -/
def station_only_ifaces : GHashTable :=
  [ ("/b", { supplicant_interface :=
               { path := "/b", ifname := "wlan0", valid := true, caps_modes := 1 },
             interface_events := (4, 5) }) ]

/-- A valid supplicant whose interface list is `NULL`. -/
def null_list_state : State :=
  { tethering_supplicant := { valid := true, interfaces := none },
    interfaces := two_interfaces, tethering_waiting := none, last_id := 5, log := [] }

/-- A session that waits with `tethering_check_ap` and tracks `/b` only. -/
def station_only_wait : TetheringWait :=
  { timeout_id := 1, supplicant_events := (2, 3), ifaces := station_only_ifaces,
    loop := { is_running := true }, check := some (tethering_check_ap 4) }

/-- A state in which that session is active while the supplicant lists `/a` and `/b`. -/
def waiting_state : State :=
  { tethering_supplicant := { valid := true, interfaces := some ["/a", "/b"] },
    interfaces := two_interfaces, tethering_waiting := some station_only_wait,
    last_id := 5, log := [] }

end Tethering

namespace Tethering

/-! ## The AP-selection predicate: lemmas -/

/-- Once `all_valid` is false the scan stops. -/
theorem check_ap_scan_false (AP : Nat) (t : GHashTable) (ap : Option String) :
    check_ap_scan AP t ap false = (ap, false) := by
  cases t <;> simp [check_ap_scan]

/-- The flag returned by the scan tells whether every interface is valid. -/
theorem check_ap_scan_snd (AP : Nat) (t : GHashTable) (ap : Option String) :
    (check_ap_scan AP t ap true).2 = t.all (fun e => e.2.supplicant_interface.valid) := by
  induction t generalizing ap with
  | nil => simp [check_ap_scan]
  | cons e t ih =>
    by_cases hv : e.2.supplicant_interface.valid = true
    · by_cases hc : (e.2.supplicant_interface.caps_modes &&& AP != 0) = true
      · simp [check_ap_scan, hv, hc, ih]
      · simp [check_ap_scan, hv, hc, ih]
    · simp [check_ap_scan, hv, check_ap_scan_false]

/-- On valid interfaces only, the scan returns the name of the last AP-capable
interface, or the name it started with when there is none. -/
theorem check_ap_scan_fst (AP : Nat) (t : GHashTable) (ap : Option String)
    (hall : ∀ e ∈ t, e.2.supplicant_interface.valid = true) :
    (check_ap_scan AP t ap true).1 =
      match (t.filter (fun e => e.2.supplicant_interface.caps_modes &&& AP != 0)).getLast? with
      | some c => some c.2.supplicant_interface.ifname
      | none => ap := by
  induction t generalizing ap with
  | nil => simp [check_ap_scan]
  | cons e t ih =>
    have hv : e.2.supplicant_interface.valid = true := hall e (List.mem_cons_self _ _)
    have ht : ∀ x ∈ t, x.2.supplicant_interface.valid = true :=
      fun x hx => hall x (List.mem_cons_of_mem _ hx)
    by_cases hc : (e.2.supplicant_interface.caps_modes &&& AP != 0) = true
    · simp only [List.filter_cons, hc, if_true]
      simp only [check_ap_scan, hv, hc, if_true, Bool.not_true, Bool.false_eq_true, if_false]
      rw [ih _ ht]
      cases hf : (t.filter (fun e => e.2.supplicant_interface.caps_modes &&& AP != 0)) with
      | nil => simp
      | cons y ys =>
        have hl : (y :: ys).getLast? = some ((y :: ys).getLast (List.cons_ne_nil _ _)) :=
          List.getLast?_eq_getLast _ _
        simp [List.getLast?_cons_cons, hl]
    · simp only [List.filter_cons, hc, if_false]
      simp only [check_ap_scan, hv, hc, if_true, Bool.not_true, Bool.false_eq_true, if_false]
      exact ih _ ht

/-- The removal loop issues a request for exactly the valid interfaces whose
name differs from `ap_ifname`, in iteration order. -/
theorem check_ap_remove_eq (ap_ifname : String) (t : GHashTable) :
    check_ap_remove ap_ifname t =
      (t.filter (fun e => e.2.supplicant_interface.valid &&
          (e.2.supplicant_interface.ifname != ap_ifname))).map
        (fun e => e.2.supplicant_interface.path) := by
  induction t with
  | nil => simp [check_ap_remove]
  | cons e t ih =>
    by_cases hv : e.2.supplicant_interface.valid = true
    · by_cases hn : (e.2.supplicant_interface.ifname != ap_ifname) = true
      · simp [check_ap_remove, hv, hn, ih]
      · simp [check_ap_remove, hv, hn, ih]
    · simp [check_ap_remove, hv, ih]

/-- The outcome of `tethering_check_ap` in terms of the scan: when every
interface is valid. -/
theorem tethering_check_ap_of_all_valid (AP : Nat) (t : GHashTable)
    (hall : ∀ e ∈ t, e.2.supplicant_interface.valid = true) :
    tethering_check_ap AP t =
      match (t.filter (fun e => e.2.supplicant_interface.caps_modes &&& AP != 0)).getLast? with
      | some c => (true, check_ap_remove c.2.supplicant_interface.ifname t)
      | none => (false, []) := by
  have h1 := check_ap_scan_fst AP t none hall
  have h2 := check_ap_scan_snd AP t none
  have h3 : t.all (fun e => e.2.supplicant_interface.valid) = true := by
    rw [List.all_eq_true]; exact fun e he => hall e he
  rw [h3] at h2
  unfold tethering_check_ap
  rcases hs : check_ap_scan AP t none true with ⟨ap, b⟩
  rw [hs] at h1 h2
  simp only at h1 h2
  subst h2
  cases hl : (t.filter (fun e => e.2.supplicant_interface.caps_modes &&& AP != 0)).getLast? with
  | none => rw [hl] at h1; simp [h1]
  | some c => rw [hl] at h1; simp [h1]

/-- The outcome of `tethering_check_ap` when some interface is not valid. -/
theorem tethering_check_ap_of_invalid (AP : Nat) (t : GHashTable)
    (hex : ∃ e ∈ t, e.2.supplicant_interface.valid = false) :
    tethering_check_ap AP t = (false, []) := by
  have h2 := check_ap_scan_snd AP t none
  have h3 : t.all (fun e => e.2.supplicant_interface.valid) = false := by
    rw [List.all_eq_false]
    obtain ⟨e, he, hv⟩ := hex
    exact ⟨e, he, by simp [hv]⟩
  rw [h3] at h2
  unfold tethering_check_ap
  rcases hs : check_ap_scan AP t none true with ⟨ap, b⟩
  rw [hs] at h2
  simp only at h2
  subst h2
  cases ap <;> rfl

/-- Every interface is valid or some interface is not. -/
theorem all_valid_or_invalid (t : GHashTable) :
    (∀ e ∈ t, e.2.supplicant_interface.valid = true) ∨
      (∃ e ∈ t, e.2.supplicant_interface.valid = false) := by
  by_cases h : ∀ e ∈ t, e.2.supplicant_interface.valid = true
  · exact Or.inl h
  · right
    push_neg at h
    obtain ⟨e, he, hv⟩ := h
    exact ⟨e, he, by simpa using hv⟩

/-- A false result comes with no removal request. -/
theorem tethering_check_ap_false_snd (AP : Nat) (t : GHashTable)
    (h : (tethering_check_ap AP t).1 = false) : (tethering_check_ap AP t).2 = [] := by
  rcases all_valid_or_invalid t with hall | hex
  · rw [tethering_check_ap_of_all_valid AP t hall] at h ⊢
    cases hl : (t.filter (fun e => e.2.supplicant_interface.caps_modes &&& AP != 0)).getLast? with
    | none => rfl
    | some c => rw [hl] at h; simp at h
  · rw [tethering_check_ap_of_invalid AP t hex]

/-- The result of `tethering_check_ap` as a boolean expression. -/
theorem tethering_check_ap_fst (AP : Nat) (t : GHashTable) :
    (tethering_check_ap AP t).1 = true ↔
      (∀ e ∈ t, e.2.supplicant_interface.valid = true) ∧
      (∃ e ∈ t, e.2.supplicant_interface.caps_modes &&& AP ≠ 0) := by
  rcases all_valid_or_invalid t with hall | hex
  · rw [tethering_check_ap_of_all_valid AP t hall]
    cases hl : (t.filter (fun e => e.2.supplicant_interface.caps_modes &&& AP != 0)).getLast? with
    | none =>
      have hnil := List.getLast?_eq_none_iff.mp hl
      simp only [Bool.false_eq_true, false_iff, not_and, not_exists]
      intro _ e he
      have hne : e ∉ t.filter (fun e => e.2.supplicant_interface.caps_modes &&& AP != 0) := by
        rw [hnil]; exact List.not_mem_nil _
      intro hcap
      apply hne
      rw [List.mem_filter]
      exact ⟨he, by simpa using hcap⟩
    | some c =>
      have hc : c ∈ t.filter (fun e => e.2.supplicant_interface.caps_modes &&& AP != 0) :=
        List.mem_of_getLast?_eq_some hl
      rw [List.mem_filter] at hc
      simp only [true_iff]
      exact ⟨hall, c, hc.1, by simpa using hc.2⟩
  · rw [tethering_check_ap_of_invalid AP t hex]
    obtain ⟨e, he, hv⟩ := hex
    simp only [Bool.false_eq_true, false_iff, not_and]
    intro hall
    have := hall e he
    rw [hv] at this
    exact absurd this (by simp)

/-! ## Refresh: lemmas -/

theorem gutil_strv_contains_iff (sv : List String) (s : String) :
    gutil_strv_contains sv s = true ↔ s ∈ sv := by
  simp [gutil_strv_contains, List.any_eq_true]

theorem g_hash_table_contains_iff (t : GHashTable) (key : String) :
    g_hash_table_contains t key = true ↔ key ∈ t.map Prod.fst := by
  simp [g_hash_table_contains, List.any_eq_true]

theorem emit_nil (st : State) : st.emit [] = st := by
  simp [State.emit]

theorem emit_emit (st : State) (a b : List Op) :
    (st.emit a).emit b = st.emit (a ++ b) := by
  simp only [State.emit, List.append_assoc]

/-- The removal loop keeps exactly the entries whose key is listed. -/
theorem remove_nonexistent_fst (ifaces : List String) (t : GHashTable) :
    (remove_nonexistent ifaces t).1 = t.filter (fun e => gutil_strv_contains ifaces e.1) := by
  induction t with
  | nil => simp [remove_nonexistent]
  | cons e t ih =>
    by_cases h : gutil_strv_contains ifaces e.1 = true
    · simp [remove_nonexistent, h, ← ih]
    · simp [remove_nonexistent, h, ← ih]

/-- The removal loop does nothing on a table whose keys are all listed. -/
theorem remove_nonexistent_noop (ifaces : List String) (t : GHashTable)
    (h : ∀ e ∈ t, e.1 ∈ ifaces) : remove_nonexistent ifaces t = (t, []) := by
  induction t with
  | nil => simp [remove_nonexistent]
  | cons e t ih =>
    have he : gutil_strv_contains ifaces e.1 = true :=
      (gutil_strv_contains_iff _ _).mpr (h e (List.mem_cons_self _ _))
    have ht := ih (fun x hx => h x (List.mem_cons_of_mem _ hx))
    simp [remove_nonexistent, he, ht]

/-- The keys after the addition loop: the old keys and the listed paths. -/
theorem add_new_keys (ifaces : List String) (st : State) (t : GHashTable) (p : String) :
    p ∈ (add_new ifaces st t).2.map Prod.fst ↔ p ∈ t.map Prod.fst ∨ p ∈ ifaces := by
  induction ifaces generalizing st t with
  | nil => simp [add_new]
  | cons q rest ih =>
    by_cases hq : g_hash_table_contains t q = true
    · have hq2 := (g_hash_table_contains_iff t q).mp hq
      simp only [add_new, hq, Bool.not_true, Bool.false_eq_true, if_false]
      rw [ih]
      constructor
      · rintro (h | h)
        · exact Or.inl h
        · exact Or.inr (List.mem_cons_of_mem _ h)
      · rintro (h | h)
        · exact Or.inl h
        · rcases List.mem_cons.mp h with h | h
          · exact Or.inl (h ▸ hq2)
          · exact Or.inr h
    · simp only [add_new, hq, Bool.not_false, if_true]
      rw [ih]
      simp only [g_hash_table_insert, List.map_append, List.map_cons, List.map_nil,
        List.mem_append, List.mem_singleton, List.mem_cons]
      tauto

/-- The addition loop does nothing when every listed path is already a key. -/
theorem add_new_noop (ifaces : List String) (st : State) (t : GHashTable)
    (h : ∀ p ∈ ifaces, p ∈ t.map Prod.fst) : add_new ifaces st t = (st, t) := by
  induction ifaces with
  | nil => simp [add_new]
  | cons q rest ih =>
    have hq : g_hash_table_contains t q = true :=
      (g_hash_table_contains_iff t q).mpr (h q (List.mem_cons_self _ _))
    simp only [add_new, hq, Bool.not_true, Bool.false_eq_true, if_false]
    exact ih (fun p hp => h p (List.mem_cons_of_mem _ hp))

theorem tethering_wifi_interface_new_supplicant (st : State) (path : String) :
    (tethering_wifi_interface_new st path).1.tethering_supplicant = st.tethering_supplicant := by
  simp [tethering_wifi_interface_new, State.emit, State.fresh]

theorem add_new_supplicant (ifaces : List String) (st : State) (t : GHashTable) :
    (add_new ifaces st t).1.tethering_supplicant = st.tethering_supplicant := by
  induction ifaces generalizing st t with
  | nil => simp [add_new]
  | cons q rest ih =>
    by_cases hq : g_hash_table_contains t q = true
    · simp only [add_new, hq, Bool.not_true, Bool.false_eq_true, if_false]
      exact ih _ _
    · simp only [add_new, hq, Bool.not_false, if_true]
      rw [ih, tethering_wifi_interface_new_supplicant]

theorem tethering_wifi_interface_new_waiting (st : State) (path : String) :
    (tethering_wifi_interface_new st path).1.tethering_waiting = st.tethering_waiting := by
  simp [tethering_wifi_interface_new, State.emit, State.fresh]

theorem add_new_waiting (ifaces : List String) (st : State) (t : GHashTable) :
    (add_new ifaces st t).1.tethering_waiting = st.tethering_waiting := by
  induction ifaces generalizing st t with
  | nil => simp [add_new]
  | cons q rest ih =>
    by_cases hq : g_hash_table_contains t q = true
    · simp only [add_new, hq, Bool.not_true, Bool.false_eq_true, if_false]
      exact ih _ _
    · simp only [add_new, hq, Bool.not_false, if_true]
      rw [ih, tethering_wifi_interface_new_waiting]

/-- Refresh does not touch the slot. -/
theorem update_interfaces_waiting (st : State) (t : GHashTable) :
    (tethering_wifi_wait_update_interfaces st t).1.tethering_waiting =
      st.tethering_waiting := by
  unfold tethering_wifi_wait_update_interfaces
  split
  · split
    · rw [add_new_waiting]; rfl
    · rfl
  · rfl

/-- Refresh does not touch the supplicant. -/
theorem update_interfaces_supplicant (st : State) (t : GHashTable) :
    (tethering_wifi_wait_update_interfaces st t).1.tethering_supplicant =
      st.tethering_supplicant := by
  unfold tethering_wifi_wait_update_interfaces
  split
  · split
    · rw [add_new_supplicant]; rfl
    · rfl
  · rfl

/-- The keys after a refresh against a valid supplicant that reports a list. -/
theorem update_interfaces_keys (st : State) (t : GHashTable) (ifaces : List String)
    (hv : st.tethering_supplicant.valid = true)
    (hi : st.tethering_supplicant.interfaces = some ifaces) (p : String) :
    p ∈ (tethering_wifi_wait_update_interfaces st t).2.map Prod.fst ↔ p ∈ ifaces := by
  unfold tethering_wifi_wait_update_interfaces
  simp only [hv, if_true, hi]
  rw [add_new_keys, remove_nonexistent_fst]
  simp only [List.mem_map, List.mem_filter, gutil_strv_contains_iff]
  constructor
  · rintro (⟨e, ⟨_, he⟩, rfl⟩ | h)
    · exact he
    · exact h
  · exact fun h => Or.inr h

/-- Refresh is a no-op on a table whose key set is already the listed set. -/
theorem update_interfaces_noop_of_keys (st : State) (t : GHashTable) (ifaces : List String)
    (hi : st.tethering_supplicant.interfaces = some ifaces)
    (hk : ∀ p, p ∈ t.map Prod.fst ↔ p ∈ ifaces) :
    tethering_wifi_wait_update_interfaces st t = (st, t) := by
  unfold tethering_wifi_wait_update_interfaces
  split
  · simp only [hi]
    have h1 : remove_nonexistent ifaces t = (t, []) :=
      remove_nonexistent_noop ifaces t
        (fun e he => (hk e.1).mp (List.mem_map_of_mem Prod.fst he))
    rw [h1]
    simp only [emit_nil]
    exact add_new_noop ifaces st t (fun p hp => (hk p).mpr hp)
  · rfl

/-- Refresh is idempotent. -/
theorem update_interfaces_idem (st : State) (t : GHashTable) :
    tethering_wifi_wait_update_interfaces (tethering_wifi_wait_update_interfaces st t).1
        (tethering_wifi_wait_update_interfaces st t).2 =
      tethering_wifi_wait_update_interfaces st t := by
  have hs := update_interfaces_supplicant st t
  by_cases hv : st.tethering_supplicant.valid = true
  · cases hi : st.tethering_supplicant.interfaces with
    | none =>
      have h0 : tethering_wifi_wait_update_interfaces st t = (st, t) := by
        unfold tethering_wifi_wait_update_interfaces
        simp [hv, hi]
      rw [h0]
      exact h0
    | some ifaces =>
      exact update_interfaces_noop_of_keys _ _ ifaces (by rw [hs, hi])
        (fun p => update_interfaces_keys st t ifaces hv hi p)
  · have h0 : tethering_wifi_wait_update_interfaces st t = (st, t) := by
      unfold tethering_wifi_wait_update_interfaces
      simp [hv]
    rw [h0]
    exact h0

/-! ## Resource accounting: lemmas -/

theorem held_from_append (r : Res) (n : Option Nat) (a b : List Op) :
    held_from r n (a ++ b) = held_from r (held_from r n a) b := by
  simp [held_from, List.foldl_append]

theorem held_from_cons (r : Res) (n : Option Nat) (op : Op) (ops : List Op) :
    held_from r n (op :: ops) = held_from r (held_step r n op) ops := rfl

/-- Calls that acquire nothing release what they release. -/
theorem held_from_release (r : Res) (ops : List Op) (n : Nat)
    (h : ∀ op ∈ ops, op.acquires = none) :
    held_from r (some ((ops.filterMap Op.releases).count r + n)) ops = some n := by
  induction ops with
  | nil => simp [held_from]
  | cons op ops ih =>
    have ha : op.acquires = none := h op (List.mem_cons_self _ _)
    have ih2 := ih (fun o ho => h o (List.mem_cons_of_mem _ ho))
    rw [held_from_cons]
    cases hr : op.releases with
    | none =>
      have e1 : (op :: ops).filterMap Op.releases = ops.filterMap Op.releases := by
        simp [List.filterMap_cons, hr]
      rw [e1]
      have e2 : held_step r (some ((ops.filterMap Op.releases).count r + n)) op =
          some ((ops.filterMap Op.releases).count r + n) := by
        simp [held_step, ha, hr]
      rw [e2]; exact ih2
    | some x =>
      have e1 : (op :: ops).filterMap Op.releases = x :: ops.filterMap Op.releases := by
        simp [List.filterMap_cons, hr]
      rw [e1]
      by_cases hx : x = r
      · subst hx
        have e2 : held_step x (some ((x :: ops.filterMap Op.releases).count x + n)) op =
            some ((ops.filterMap Op.releases).count x + n) := by
          simp [held_step, ha, hr, List.count_cons]
        rw [e2]; exact ih2
      · have e2 : held_step r (some ((x :: ops.filterMap Op.releases).count r + n)) op =
            some ((ops.filterMap Op.releases).count r + n) := by
          simp [held_step, ha, hr, List.count_cons, hx]
        rw [e2]; exact ih2

/-- Calls that release nothing acquire what they acquire. -/
theorem held_from_acquire (r : Res) (ops : List Op) (n : Nat)
    (h : ∀ op ∈ ops, op.releases = none) :
    held_from r (some n) ops = some (n + (ops.filterMap Op.acquires).count r) := by
  induction ops generalizing n with
  | nil => simp [held_from]
  | cons op ops ih =>
    have hr : op.releases = none := h op (List.mem_cons_self _ _)
    have ih2 := fun m => ih m (fun o ho => h o (List.mem_cons_of_mem _ ho))
    rw [held_from_cons]
    cases ha : op.acquires with
    | none =>
      have e1 : (op :: ops).filterMap Op.acquires = ops.filterMap Op.acquires := by
        simp [List.filterMap_cons, ha]
      have e2 : held_step r (some n) op = some n := by simp [held_step, ha, hr]
      rw [e1, e2]; exact ih2 n
    | some x =>
      have e1 : (op :: ops).filterMap Op.acquires = x :: ops.filterMap Op.acquires := by
        simp [List.filterMap_cons, ha]
      rw [e1]
      by_cases hx : x = r
      · subst hx
        have e2 : held_step x (some n) op = some (n + 1) := by simp [held_step, ha]
        rw [e2, ih2 (n + 1)]
        simp [List.count_cons]
        omega
      · have e2 : held_step r (some n) op = some n := by simp [held_step, ha, hr, hx]
        rw [e2, ih2 n]
        simp [List.count_cons, hx]

/-- Removal requests hold nothing. -/
theorem held_from_remove_interface (r : Res) (paths : List String) (n : Nat) :
    held_from r (some n) (paths.map Op.remove_interface) = some n := by
  have h := held_from_acquire r (paths.map Op.remove_interface) n
    (by intro op hop; obtain ⟨p, _, rfl⟩ := List.mem_map.mp hop; rfl)
  rw [h]
  have e : (paths.map Op.remove_interface).filterMap Op.acquires = [] := by
    rw [List.filterMap_eq_nil_iff]
    intro op hop; obtain ⟨p, _, rfl⟩ := List.mem_map.mp hop; rfl
  simp [e]

theorem emits_refl (log : List Op) (t : GHashTable) : Emits log log t t :=
  ⟨[], by simp, by simp, fun r n => rfl⟩

theorem emits_trans {l1 l2 l3 : List Op} {t1 t2 t3 : GHashTable}
    (h12 : Emits l1 l2 t1 t2) (h23 : Emits l2 l3 t2 t3) : Emits l1 l3 t1 t3 := by
  obtain ⟨a, ha, hai, hah⟩ := h12
  obtain ⟨b, hb, hbi, hbh⟩ := h23
  refine ⟨a ++ b, by rw [hb, ha, List.append_assoc], ?_, ?_⟩
  · intro op hop
    rcases List.mem_append.mp hop with h | h
    · exact hai op h
    · exact hbi op h
  · intro r n
    rw [held_from_append, hah, hbh]

theorem registry_res_append (a b : GHashTable) :
    registry_res (a ++ b) = registry_res a ++ registry_res b := by
  induction a with
  | nil => rfl
  | cons e a ih => simp [registry_res, ih, List.append_assoc]

/-- Freeing a tracked interface releases what it holds. -/
theorem interface_free_spec (iface : TetheringWaitInterface) :
    (∀ op ∈ tethering_wifi_interface_free iface, op.in_loop = true ∧ op.acquires = none) ∧
    ∀ r, ((tethering_wifi_interface_free iface).filterMap Op.releases).count r =
      (entry_res iface).count r := by
  constructor
  · intro op hop
    simp only [tethering_wifi_interface_free, List.mem_cons, List.mem_singleton,
      List.not_mem_nil, or_false] at hop
    rcases hop with h | h | h <;> subst h <;> exact ⟨rfl, rfl⟩
  · intro r
    simp only [tethering_wifi_interface_free, entry_res, List.filterMap_cons, Op.releases,
      List.filterMap_nil, List.count_cons, List.count_nil]
    omega

/-- The removal loop releases what the removed entries hold. -/
theorem remove_nonexistent_spec (ifaces : List String) (t : GHashTable) :
    (∀ op ∈ (remove_nonexistent ifaces t).2, op.in_loop = true ∧ op.acquires = none) ∧
    ∀ r, (registry_res t).count r =
      ((remove_nonexistent ifaces t).2.filterMap Op.releases).count r +
        (registry_res (remove_nonexistent ifaces t).1).count r := by
  induction t with
  | nil => simp [remove_nonexistent, registry_res]
  | cons e t ih =>
    obtain ⟨ih1, ih2⟩ := ih
    obtain ⟨f1, f2⟩ := interface_free_spec e.2
    by_cases h : gutil_strv_contains ifaces e.1 = true
    · simp only [remove_nonexistent, h, Bool.not_true, Bool.false_eq_true, if_false]
      refine ⟨ih1, fun r => ?_⟩
      simp only [registry_res, List.count_append]
      rw [ih2 r]; omega
    · simp only [remove_nonexistent, h, Bool.not_false, if_true]
      refine ⟨?_, fun r => ?_⟩
      · intro op hop
        rcases List.mem_append.mp hop with h1 | h1
        · exact f1 op h1
        · exact ih1 op h1
      · simp only [registry_res, List.count_append, List.filterMap_append]
        rw [ih2 r, f2 r]; omega

theorem remove_nonexistent_emits (ifaces : List String) (log : List Op) (t : GHashTable) :
    Emits log (log ++ (remove_nonexistent ifaces t).2) t (remove_nonexistent ifaces t).1 := by
  obtain ⟨h1, h2⟩ := remove_nonexistent_spec ifaces t
  refine ⟨_, rfl, fun op hop => (h1 op hop).1, fun r n => ?_⟩
  rw [h2 r, Nat.add_assoc]
  exact held_from_release r _ _ (fun op hop => (h1 op hop).2)

/-- Tracking a new interface acquires what the new entry holds. -/
theorem interface_new_emits (st : State) (path : String) (t : GHashTable) (key : String) :
    Emits st.log (tethering_wifi_interface_new st path).1.log t
      (g_hash_table_insert t key (tethering_wifi_interface_new st path).2) := by
  refine ⟨[Op.interface_new path,
      Op.interface_add_handler path (st.last_id + 1) .VALID,
      Op.interface_add_handler path (st.last_id + 1 + 1) .CAPS], ?_, ?_, fun r n => ?_⟩
  · simp [tethering_wifi_interface_new, State.emit, State.fresh]
  · intro op hop
    simp only [List.mem_cons, List.mem_singleton, List.not_mem_nil, or_false] at hop
    rcases hop with h | h | h <;> subst h <;> rfl
  · rw [held_from_acquire r _ _ (by
      intro op hop
      simp only [List.mem_cons, List.mem_singleton, List.not_mem_nil, or_false] at hop
      rcases hop with h | h | h <;> subst h <;> rfl)]
    simp only [g_hash_table_insert, registry_res_append, registry_res, List.append_nil,
      List.count_append, entry_res, tethering_wifi_interface_new, gsupplicant_interface_new,
      State.emit, State.fresh, List.filterMap_cons, Op.acquires, List.filterMap_nil]
    congr 1
    omega

theorem add_new_emits (ifaces : List String) (st : State) (t : GHashTable) :
    Emits st.log (add_new ifaces st t).1.log t (add_new ifaces st t).2 := by
  induction ifaces generalizing st t with
  | nil => exact emits_refl _ _
  | cons q rest ih =>
    by_cases hq : g_hash_table_contains t q = true
    · simp only [add_new, hq, Bool.not_true, Bool.false_eq_true, if_false]
      exact ih st t
    · simp only [add_new, hq, Bool.not_false, if_true]
      exact emits_trans (interface_new_emits st q t q) (ih _ _)

/-- Refresh acquires and releases the difference between the two tables. -/
theorem update_interfaces_emits (st : State) (t : GHashTable) :
    Emits st.log (tethering_wifi_wait_update_interfaces st t).1.log t
      (tethering_wifi_wait_update_interfaces st t).2 := by
  unfold tethering_wifi_wait_update_interfaces
  split
  · split
    · rename_i ifaces _
      exact emits_trans (remove_nonexistent_emits ifaces st.log t)
        (add_new_emits ifaces (st.emit (remove_nonexistent ifaces t).2) _)
    · exact emits_refl _ _
  · exact emits_refl _ _

/-! ## The loop: lemmas -/

theorem in_loop_not_timeout (op : Op) (h : op.in_loop = true) : op.is_timeout = false := by
  cases op <;> simp_all [Op.in_loop, Op.is_timeout]

theorem filter_timeout_in_loop (ops : List Op) (h : ∀ op ∈ ops, op.in_loop = true) :
    ops.filter Op.is_timeout = [] := by
  rw [List.filter_eq_nil_iff]
  intro op hop
  rw [in_loop_not_timeout op (h op hop)]
  simp

theorem loop_step_refl (log : List Op) (w : TetheringWait) : LoopStep log w log w :=
  ⟨emits_refl _ _, rfl, rfl, fun h => h⟩

theorem loop_step_trans {l1 l2 l3 : List Op} {w1 w2 w3 : TetheringWait}
    (h12 : LoopStep l1 w1 l2 w2) (h23 : LoopStep l2 w2 l3 w3) : LoopStep l1 w1 l3 w3 :=
  ⟨emits_trans h12.1 h23.1, h23.2.1.trans h12.2.1, h23.2.2.1.trans h12.2.2.1,
    fun h => h12.2.2.2 (h23.2.2.2 h)⟩

/-- Removal requests leave what is held as it is. -/
theorem remove_interface_emits (log : List Op) (paths : List String) (t : GHashTable) :
    Emits log (log ++ paths.map Op.remove_interface) t t :=
  ⟨_, rfl, by intro op hop; obtain ⟨p, _, rfl⟩ := List.mem_map.mp hop; rfl,
    fun r n => held_from_remove_interface r paths _⟩

theorem tethering_wifi_check_step (st : State) (w : TetheringWait) :
    LoopStep st.log w (tethering_wifi_check st w).1.log (tethering_wifi_check st w).2 := by
  unfold tethering_wifi_check
  cases hc : w.check with
  | none => exact ⟨emits_refl _ _, rfl, rfl, fun h => by simp [g_main_loop_quit] at h⟩
  | some check =>
    simp only
    split
    · exact ⟨remove_interface_emits _ _ _, rfl, rfl, fun h => by simp [g_main_loop_quit] at h⟩
    · exact ⟨remove_interface_emits _ _ _, rfl, rfl, fun h => h⟩

theorem supplicant_event_handler_step (st : State) (w : TetheringWait) :
    LoopStep st.log w (tethering_wifi_supplicant_event_handler st w).1.log
      (tethering_wifi_supplicant_event_handler st w).2 := by
  unfold tethering_wifi_supplicant_event_handler
  have h1 : LoopStep st.log w (tethering_wifi_wait_update_interfaces st w.ifaces).1.log
      { w with ifaces := (tethering_wifi_wait_update_interfaces st w.ifaces).2 } :=
    ⟨update_interfaces_emits st w.ifaces, rfl, rfl, fun h => h⟩
  exact loop_step_trans h1 (tethering_wifi_check_step _ _)

theorem interface_handlers_step (path : String) (t : GHashTable) (st : State)
    (w : TetheringWait) :
    LoopStep st.log w (interface_handlers path t st w).1.log
      (interface_handlers path t st w).2 := by
  induction t generalizing st w with
  | nil => exact loop_step_refl _ _
  | cons e t ih =>
    by_cases h : e.2.supplicant_interface.path = path
    · simp only [interface_handlers, h, if_true]
      exact loop_step_trans (tethering_wifi_check_step st w) (ih _ _)
    · simp only [interface_handlers, h, if_false]
      exact ih _ _

theorem registry_res_interface_set (i : GSupplicantInterface) (t : GHashTable) :
    registry_res (interface_set i t) = registry_res t := by
  induction t with
  | nil => rfl
  | cons e t ih =>
    have ih2 : registry_res (List.map (fun e : String × TetheringWaitInterface =>
        if e.2.supplicant_interface.path = i.path then
          (e.1, { e.2 with supplicant_interface := i }) else e) t) = registry_res t := ih
    by_cases h : e.2.supplicant_interface.path = i.path
    · simp [interface_set, registry_res, ih2, h, entry_res]
    · simp [interface_set, registry_res, ih2, h]

theorem interface_set_step (i : GSupplicantInterface) (log : List Op) (w : TetheringWait) :
    LoopStep log w log { w with ifaces := interface_set i w.ifaces } :=
  ⟨⟨[], by simp, by simp, fun r n => by
      simp only [registry_res_interface_set]; rfl⟩, rfl, rfl, fun h => h⟩

/-- A step inside the loop keeps the invariant of the loop. -/
theorem wait_inv_step {base : List Op} {tid : Nat} {st st' : State} {w w' : TetheringWait}
    (hinv : WaitInv base tid st) (hw : st.tethering_waiting = some w)
    (hstep : LoopStep st.log w st'.log w') (hw' : st'.tethering_waiting = some w') :
    WaitInv base tid st' := by
  obtain ⟨w0, delta, h0, hlog, hheld, htid, htl⟩ := hinv
  rw [hw] at h0
  cases h0
  obtain ⟨⟨ops, hops, hin, hh⟩, ht, he, hr⟩ := hstep
  have hsess : session_res w' = session_res w := by simp [session_res, ht, he]
  refine ⟨w', delta ++ ops, hw', by rw [hops, hlog, List.append_assoc], fun r => ?_, htid, ?_⟩
  · unfold held
    rw [held_from_append]
    have := hheld r
    unfold held at this
    rw [this, List.count_append, Nat.add_comm, hh, hsess, List.count_append, Nat.add_comm]
  · rw [List.filter_append, filter_timeout_in_loop ops hin, List.append_nil, ht]
    rcases htl with ⟨h1, h2⟩ | ⟨h1, h2, h3⟩
    · exact Or.inl ⟨h1, h2⟩
    · refine Or.inr ⟨h1, ?_, h3⟩
      cases hb : w'.loop.is_running with
      | false => rfl
      | true => rw [hr hb] at h2; exact absurd h2 (by simp)

/-- The branch of `tethering_wait` taken while a session is active (lines 216-222). -/
theorem tethering_wait_active (run : State → State) (check : Option TetheringWaitCheckFunc)
    (st : State) (w : TetheringWait) (hw : st.tethering_waiting = some w) :
    tethering_wait run check st =
      { st with tethering_waiting := (some
          { w with check := check,
                   loop := if check.isNone then g_main_loop_quit w.loop else w.loop }) } := by
  unfold tethering_wait
  rw [hw]
  cases check <;> simp

/-- The dispatch of the timeout source keeps the invariant of the loop, and
leaves a loop that was asked to quit. -/
theorem dispatch_timeout_inv {base : List Op} {tid : Nat} {st : State}
    (hinv : WaitInv base tid st) :
    WaitInv base tid (dispatch_timeout st) ∧ (dispatch_timeout st).running = false := by
  obtain ⟨w, delta, hw, hlog, hheld, htid, htl⟩ := hinv
  unfold dispatch_timeout
  rw [hw]
  rcases htl with ⟨h1, h2⟩ | ⟨h1, h2, h3⟩
  · have hne : (w.timeout_id != 0) = true := by simp [h1, htid]
    simp only [hne, if_true]
    refine ⟨⟨_, delta ++ [Op.timeout_fired tid], rfl, ?_, fun r => ?_, htid, ?_⟩, ?_⟩
    · simp [tethering_wifi_timeout, State.emit, hlog, h1]
    · unfold held
      rw [held_from_append]
      have := hheld r
      unfold held at this
      rw [this]
      have hc : (session_res w ++ registry_res w.ifaces).count r =
          (([Op.timeout_fired tid].filterMap Op.releases).count r) +
            (session_res (tethering_wifi_timeout st w).2 ++
              registry_res (tethering_wifi_timeout st w).2.ifaces).count r := by
        have hne2 : (tid != 0) = true := by simp [htid]
        simp only [session_res, hne2, if_true, tethering_wifi_timeout, List.filterMap_cons,
          Op.releases, List.filterMap_nil, List.count_append, h1, bne_self_eq_false,
          Bool.false_eq_true, if_false, List.count_nil]
        omega
      rw [hc]
      exact held_from_release r _ _ (by intro op hop; simp at hop; subst hop; rfl)
    · right
      refine ⟨rfl, rfl, ?_⟩
      rw [List.filter_append, h2]
      simp [Op.is_timeout]
    · simp [State.running, tethering_wifi_timeout, g_main_loop_quit]
  · have hne : (w.timeout_id != 0) = false := by simp [h1]
    simp only [hne, Bool.false_eq_true, if_false]
    exact ⟨⟨w, delta, hw, hlog, hheld, htid, Or.inr ⟨h1, h2, h3⟩⟩, by simp [State.running, hw, h2]⟩

/-- A request made while the session waits keeps the invariant of the loop. -/
theorem tethering_wait_inv {base : List Op} {tid : Nat} {st : State} (run : State → State)
    (check : Option TetheringWaitCheckFunc) (hinv : WaitInv base tid st) :
    WaitInv base tid (tethering_wait run check st) := by
  obtain ⟨w, delta, hw, hrest⟩ := hinv
  rw [tethering_wait_active run check st w hw]
  refine @wait_inv_step base tid st _ w _ ⟨w, delta, hw, hrest⟩ hw ?_ rfl
  refine ⟨emits_refl _ _, rfl, rfl, ?_⟩
  cases check <;> simp [g_main_loop_quit]

theorem tethering_changed_notify_inv {base : List Op} {tid : Nat} {st : State}
    (run : State → State) (AP : Nat) (on_ : Bool) (dev : CmdDevNode)
    (hinv : WaitInv base tid st) :
    WaitInv base tid (tethering_changed_notify run AP on_ dev st) := by
  unfold tethering_changed_notify
  split
  · split
    · exact tethering_wait_inv _ _ hinv
    · exact hinv
  · split
    · exact tethering_wait_inv _ _ hinv
    · exact hinv

/-- Every dispatch keeps the invariant of the loop. -/
theorem dispatch_inv {base : List Op} {tid : Nat} {st : State} (AP : Nat) (ev : Event)
    (hinv : WaitInv base tid st) : WaitInv base tid (dispatch AP ev st) := by
  cases ev with
  | supplicant_changed s prop =>
    obtain ⟨w, delta, hw, hrest⟩ := hinv
    have hinv1 : WaitInv base tid { st with tethering_supplicant := s } :=
      ⟨w, delta, hw, hrest⟩
    simp only [dispatch, hw]
    exact wait_inv_step hinv1 hw (supplicant_event_handler_step _ w) rfl
  | interface_changed i prop =>
    obtain ⟨w, delta, hw, hrest⟩ := hinv
    have hinv1 : WaitInv base tid
        { st with interfaces := fun p => if p = i.path then i else st.interfaces p } :=
      ⟨w, delta, hw, hrest⟩
    simp only [dispatch, hw]
    refine wait_inv_step hinv1 hw ?_ rfl
    exact loop_step_trans (interface_set_step i st.log w) (interface_handlers_step _ _ _ _)
  | timeout => exact (dispatch_timeout_inv hinv).1
  | tethering_changed on_ dev => exact tethering_changed_notify_inv _ _ _ _ hinv

theorem dispatch_foldl_inv {base : List Op} {tid : Nat} (AP : Nat) (evs : List Event)
    {st : State} (hinv : WaitInv base tid st) :
    WaitInv base tid (evs.foldl (fun s e => dispatch AP e s) st) := by
  induction evs generalizing st with
  | nil => exact hinv
  | cons ev evs ih => exact ih (dispatch_inv AP ev hinv)

/-- The loop returns, in a state that satisfies the invariant and in which it
was asked to quit. -/
theorem g_main_loop_run_inv {base : List Op} {tid : Nat} (AP : Nat) (trace : List (List Event))
    {st : State} (hinv : WaitInv base tid st) :
    WaitInv base tid (g_main_loop_run AP trace st) ∧
      (g_main_loop_run AP trace st).running = false := by
  induction trace generalizing st with
  | nil => exact dispatch_timeout_inv hinv
  | cons evs rest ih =>
    have h1 := dispatch_foldl_inv AP evs hinv
    simp only [g_main_loop_run]
    split
    · exact ih h1
    · rename_i hr
      exact ⟨h1, by simpa using hr⟩

/-! ## A session from the idle state: lemmas -/

theorem tethering_wait_seed_emits (st : State) :
    Emits (st.log ++ [Op.supplicant_ref]) (tethering_wait_seed st).1.log []
      (tethering_wait_seed st).2 :=
  update_interfaces_emits (st.emit [Op.supplicant_ref]) []

theorem tethering_wait_seed_supplicant (st : State) :
    (tethering_wait_seed st).1.tethering_supplicant = st.tethering_supplicant := by
  unfold tethering_wait_seed
  rw [update_interfaces_supplicant]
  rfl

theorem tethering_wait_test_emits (check : TetheringWaitCheckFunc) (st : State)
    (t : GHashTable) : Emits st.log (tethering_wait_test check st t).2.log t t := by
  unfold tethering_wait_test
  split
  · exact emits_refl _ _
  · exact remove_interface_emits _ _ _

/-- From the idle state to line 233: the supplicant reference, then calls of
the kind made inside the loop, which acquire what the seeded table holds. -/
theorem tethering_wait_seed_test_log (check : TetheringWaitCheckFunc) (st : State) :
    ∃ ops, (tethering_wait_test check (tethering_wait_seed st).1
        (tethering_wait_seed st).2).2.log = st.log ++ ([Op.supplicant_ref] ++ ops) ∧
      (∀ op ∈ ops, op.in_loop = true) ∧
      ∀ r n, held_from r (some n) ops =
        some ((registry_res (tethering_wait_seed st).2).count r + n) := by
  obtain ⟨ops, h1, h2, h3⟩ :=
    emits_trans (tethering_wait_seed_emits st)
      (tethering_wait_test_emits check (tethering_wait_seed st).1 (tethering_wait_seed st).2)
  refine ⟨ops, by rw [h1, List.append_assoc], h2, fun r n => ?_⟩
  have := h3 r n
  simpa [registry_res] using this

/-- Destroying the table releases what it holds. -/
theorem g_hash_table_destroy_spec (t : GHashTable) :
    (∀ op ∈ g_hash_table_destroy t, op.in_loop = true ∧ op.acquires = none) ∧
    ∀ r, ((g_hash_table_destroy t).filterMap Op.releases).count r =
      (registry_res t).count r := by
  induction t with
  | nil => simp [g_hash_table_destroy, registry_res]
  | cons e t ih =>
    obtain ⟨ih1, ih2⟩ := ih
    obtain ⟨f1, f2⟩ := interface_free_spec e.2
    refine ⟨?_, fun r => ?_⟩
    · intro op hop
      rcases List.mem_append.mp hop with h | h
      · exact f1 op h
      · exact ih1 op h
    · simp only [g_hash_table_destroy, registry_res, List.filterMap_append, List.count_append]
      rw [ih2 r, f2 r]

/-- Releasing all that is held leaves nothing held. -/
theorem held_release_all (r : Res) (delta ops : List Op) (held_res : List Res)
    (h : held r delta = some (held_res.count r)) (hacq : ∀ op ∈ ops, op.acquires = none)
    (hrel : (ops.filterMap Op.releases).count r = held_res.count r) :
    held r (delta ++ ops) = some 0 := by
  unfold held at h ⊢
  rw [held_from_append, h, ← hrel]
  exact held_from_release r ops 0 hacq

/-- The state in which the loop is entered satisfies the invariant of the loop. -/
theorem tethering_wait_arm_inv (check : TetheringWaitCheckFunc) (st : State) :
    WaitInv st.log
      ((tethering_wait_test check (tethering_wait_seed st).1
        (tethering_wait_seed st).2).2.last_id + 1)
      (tethering_wait_arm check (tethering_wait_seed st).2
        (tethering_wait_test check (tethering_wait_seed st).1 (tethering_wait_seed st).2).2) := by
  obtain ⟨ops, h1, h2, h3⟩ := tethering_wait_seed_test_log check st
  generalize (tethering_wait_test check (tethering_wait_seed st).1
    (tethering_wait_seed st).2).2 = s2 at h1 ⊢
  generalize (tethering_wait_seed st).2 = ifaces at h3 ⊢
  refine ⟨_, [Op.supplicant_ref] ++ ops ++
      [Op.main_loop_new, Op.timeout_add (s2.last_id + 1),
        Op.supplicant_add_handler (s2.last_id + 1 + 1) .VALID,
        Op.supplicant_add_handler (s2.last_id + 1 + 1 + 1) .INTERFACES], rfl, ?_,
    fun r => ?_, Nat.succ_ne_zero _, Or.inl ⟨rfl, ?_⟩⟩
  · simp [tethering_wait_arm, State.emit, State.fresh, h1]
  · unfold held
    rw [held_from_append, held_from_append,
      held_from_acquire r [Op.supplicant_ref] 0 (by intro op hop; simp at hop; subst hop; rfl),
      h3, held_from_acquire r _ _ (by
        intro op hop
        simp only [List.mem_cons, List.mem_singleton, List.not_mem_nil, or_false] at hop
        rcases hop with h | h | h | h <;> subst h <;> rfl)]
    simp only [tethering_wait_arm, State.emit, State.fresh, session_res, List.filterMap_cons,
      Op.acquires, List.filterMap_nil, List.count_append, List.count_cons, List.count_nil,
      Nat.succ_ne_zero, bne_iff_ne, ne_eq, not_false_eq_true, if_true]
    congr 1
    omega
  · rw [List.filter_append, List.filter_append, filter_timeout_in_loop ops h2]
    simp [Op.is_timeout]

/-- Lines 254-268 release all that the session holds. -/
theorem tethering_wait_finish_spec {base : List Op} {tid : Nat} {st : State}
    (ifaces : GHashTable) (hinv : WaitInv base tid st) :
    (tethering_wait_finish ifaces st).tethering_waiting = none ∧
    ∃ delta, (tethering_wait_finish ifaces st).log = base ++ delta ∧
      (∀ r, held r delta = some 0) ∧
      (delta.filter Op.is_timeout = [Op.timeout_add tid, Op.timeout_fired tid] ∨
        delta.filter Op.is_timeout = [Op.timeout_add tid, Op.source_remove tid]) := by
  obtain ⟨w, delta, hw, hlog, hheld, htid, htl⟩ := hinv
  obtain ⟨d1, d2⟩ := g_hash_table_destroy_spec w.ifaces
  have hfin : ∀ pre : List Op,
      (∀ op ∈ pre, op.acquires = none) →
      (∀ r, (pre.filterMap Op.releases).count r =
        (if w.timeout_id != 0 then [Res.timeout w.timeout_id] else []).count r) →
      ∀ r, held r (delta ++ (pre ++ [Op.main_loop_unref,
          Op.supplicant_remove_handler w.supplicant_events.1,
          Op.supplicant_remove_handler w.supplicant_events.2] ++
          g_hash_table_destroy w.ifaces ++ [Op.supplicant_unref])) = some 0 := by
    intro pre hp1 hp2 r
    refine held_release_all r delta _ _ (hheld r) ?_ ?_
    · intro op hop
      simp only [List.mem_append, List.mem_cons, List.mem_singleton, List.not_mem_nil,
        or_false] at hop
      rcases hop with ((h | h | h | h) | h) | h
      · exact hp1 op h
      · subst h; rfl
      · subst h; rfl
      · subst h; rfl
      · exact (d1 op h).2
      · subst h; rfl
    · simp only [List.filterMap_append, List.count_append, hp2 r, d2 r, session_res,
        List.filterMap_cons, Op.releases, List.filterMap_nil, List.count_cons, List.count_nil]
      omega
  have hdf : (g_hash_table_destroy w.ifaces).filter Op.is_timeout = [] :=
    filter_timeout_in_loop _ (fun op hop => (d1 op hop).1)
  rcases htl with ⟨h1, h2⟩ | ⟨h1, h2, h3⟩
  · have hne : (w.timeout_id != 0) = true := by simp [h1, htid]
    refine ⟨by simp [tethering_wait_finish, tethering_wait_cleanup, tethering_wait_disarm,
        State.emit, hw, show w.timeout_id ≠ 0 from h1 ▸ htid],
      delta ++ ([Op.source_remove w.timeout_id] ++ [Op.main_loop_unref,
          Op.supplicant_remove_handler w.supplicant_events.1,
          Op.supplicant_remove_handler w.supplicant_events.2] ++
          g_hash_table_destroy w.ifaces ++ [Op.supplicant_unref]), ?_, ?_, Or.inr ?_⟩
    · simp [tethering_wait_finish, tethering_wait_cleanup, tethering_wait_disarm,
        State.emit, hw, hne, hlog]
    · exact hfin _ (by intro op hop; simp at hop; subst hop; rfl)
        (by intro r; simp [hne, Op.releases])
    · simp only [List.filter_append, h2, hdf]
      simp [Op.is_timeout, h1]
  · have hne : (w.timeout_id != 0) = false := by simp [h1]
    refine ⟨by simp [tethering_wait_finish, tethering_wait_cleanup, tethering_wait_disarm,
        State.emit, hw, h1], delta ++ ([] ++ [Op.main_loop_unref,
          Op.supplicant_remove_handler w.supplicant_events.1,
          Op.supplicant_remove_handler w.supplicant_events.2] ++
          g_hash_table_destroy w.ifaces ++ [Op.supplicant_unref]), ?_, ?_, Or.inl ?_⟩
    · simp [tethering_wait_finish, tethering_wait_cleanup, tethering_wait_disarm,
        State.emit, hw, hne, hlog]
    · exact hfin _ (by simp) (by intro r; simp [hne])
    · simp only [List.filter_append, h3, hdf]
      simp [Op.is_timeout]

theorem registry_res_count_supplicant_ref (t : GHashTable) :
    (registry_res t).count Res.supplicant_ref = 0 := by
  induction t with
  | nil => rfl
  | cons e t ih => simp [registry_res, entry_res, List.count_append, ih, List.count_cons]

theorem registry_res_count_main_loop (t : GHashTable) :
    (registry_res t).count Res.main_loop = 0 := by
  induction t with
  | nil => rfl
  | cons e t ih => simp [registry_res, entry_res, List.count_append, ih, List.count_cons]

/-- In a state that satisfies the invariant of the loop exactly one supplicant
reference and one main loop are held. -/
theorem wait_inv_one_session {base : List Op} {tid : Nat} {st : State}
    (hinv : WaitInv base tid st) :
    ∃ wait delta, st.tethering_waiting = some wait ∧ st.log = base ++ delta ∧
      held Res.supplicant_ref delta = some 1 ∧ held Res.main_loop delta = some 1 := by
  obtain ⟨w, delta, hw, hlog, hheld, _, _⟩ := hinv
  refine ⟨w, delta, hw, hlog, ?_, ?_⟩
  · rw [hheld, List.count_append, registry_res_count_supplicant_ref]
    by_cases h : (w.timeout_id != 0) = true <;> simp [session_res, h]
  · rw [hheld, List.count_append, registry_res_count_main_loop]
    by_cases h : (w.timeout_id != 0) = true <;> simp [session_res, h]

/-- The function `tethering_wait` from the idle state with a predicate (lines 223-269). -/
theorem tethering_wait_idle (run : State → State) (check : TetheringWaitCheckFunc)
    (st : State) (hidle : st.tethering_waiting = none) :
    tethering_wait run (some check) st =
      if (tethering_wait_test check (tethering_wait_seed st).1
          (tethering_wait_seed st).2).1 = true then
        tethering_wait_finish (tethering_wait_seed st).2
          (run (tethering_wait_arm check (tethering_wait_seed st).2
            (tethering_wait_test check (tethering_wait_seed st).1
              (tethering_wait_seed st).2).2))
      else
        tethering_wait_cleanup (tethering_wait_seed st).2
          (tethering_wait_test check (tethering_wait_seed st).1
            (tethering_wait_seed st).2).2 := by
  unfold tethering_wait
  rw [hidle]

/-- Lines 266-268 when no wait was needed: all that was acquired is released,
and what was called in between is of the kind made inside the loop. -/
theorem tethering_wait_cleanup_spec (check : TetheringWaitCheckFunc) (st : State) :
    (tethering_wait_cleanup (tethering_wait_seed st).2
      (tethering_wait_test check (tethering_wait_seed st).1
        (tethering_wait_seed st).2).2).tethering_waiting =
      (tethering_wait_seed st).1.tethering_waiting ∧
    ∃ ops, (tethering_wait_cleanup (tethering_wait_seed st).2
        (tethering_wait_test check (tethering_wait_seed st).1
          (tethering_wait_seed st).2).2).log =
        st.log ++ ([Op.supplicant_ref] ++ ops ++ [Op.supplicant_unref]) ∧
      (∀ op ∈ ops, op.in_loop = true) ∧
      ∀ r, held r ([Op.supplicant_ref] ++ ops ++ [Op.supplicant_unref]) = some 0 := by
  obtain ⟨ops, h1, h2, h3⟩ := tethering_wait_seed_test_log check st
  obtain ⟨d1, d2⟩ := g_hash_table_destroy_spec (tethering_wait_seed st).2
  refine ⟨?_, ops ++ g_hash_table_destroy (tethering_wait_seed st).2, ?_, ?_, fun r => ?_⟩
  · unfold tethering_wait_test
    split <;> simp [tethering_wait_cleanup, State.emit]
  · simp [tethering_wait_cleanup, State.emit, h1, List.append_assoc]
  · intro op hop
    rcases List.mem_append.mp hop with h | h
    · exact h2 op h
    · exact (d1 op h).1
  · have e : [Op.supplicant_ref] ++ (ops ++ g_hash_table_destroy (tethering_wait_seed st).2) ++
        [Op.supplicant_unref] = ([Op.supplicant_ref] ++ ops) ++
          (g_hash_table_destroy (tethering_wait_seed st).2 ++ [Op.supplicant_unref]) := by
      simp [List.append_assoc]
    rw [e]
    refine held_release_all r _ _
      (registry_res (tethering_wait_seed st).2 ++ [Res.supplicant_ref]) ?_ ?_ ?_
    · unfold held
      rw [held_from_append,
        held_from_acquire r [Op.supplicant_ref] 0 (by intro op hop; simp at hop; subst hop; rfl),
        h3]
      simp [Op.acquires, List.count_append]
    · intro op hop
      rcases List.mem_append.mp hop with h | h
      · exact (d1 op h).2
      · simp at h; subst h; rfl
    · simp [List.filterMap_append, List.count_append, d2 r, Op.releases]

theorem tethering_wait_test_fst (check : TetheringWaitCheckFunc) (st : State)
    (t : GHashTable) :
    (tethering_wait_test check st t).1 = (!st.tethering_supplicant.valid || !(check t).1) := by
  unfold tethering_wait_test
  cases st.tethering_supplicant.valid <;> simp

/-- C1: `tethering_check_ap` returns true if and only if every tracked
interface is valid and at least one has the AP capability bit set. In
particular it returns false when some tracked interface is not valid, whatever
the capabilities are, and when all are valid and none is AP-capable, the empty
table included. -/
theorem tethering_check_ap_true_iff (AP : Nat) (ifaces : GHashTable) :
    ((tethering_check_ap AP ifaces).1 = true ↔
      (∀ e ∈ ifaces, e.2.supplicant_interface.valid = true) ∧
      (∃ e ∈ ifaces, e.2.supplicant_interface.caps_modes &&& AP ≠ 0)) ∧
    ((∃ e ∈ ifaces, e.2.supplicant_interface.valid = false) →
      (tethering_check_ap AP ifaces).1 = false) ∧
    ((∀ e ∈ ifaces, e.2.supplicant_interface.valid = true) →
      (∀ e ∈ ifaces, e.2.supplicant_interface.caps_modes &&& AP = 0) →
      (tethering_check_ap AP ifaces).1 = false) ∧
    (tethering_check_ap AP []).1 = false := by
  refine ⟨tethering_check_ap_fst AP ifaces, ?_, ?_, ?_⟩
  · intro hex
    rw [tethering_check_ap_of_invalid AP ifaces hex]
  · intro _ hno
    cases hr : (tethering_check_ap AP ifaces).1 with
    | false => rfl
    | true =>
      obtain ⟨_, e, he, hcap⟩ := (tethering_check_ap_fst AP ifaces).mp hr
      exact absurd (hno e he) hcap
  · rfl

/-- C1, on a table with an AP-capable interface and an interface that is not valid. -/
theorem tethering_check_ap_true_iff_witness :
    (tethering_check_ap 4
      [ ("/a", { supplicant_interface :=
                   { path := "/a", ifname := "ap0", valid := true, caps_modes := 4 },
                 interface_events := (1, 2) }),
        ("/b", { supplicant_interface :=
                   { path := "/b", ifname := "wlan0", valid := false, caps_modes := 4 },
                 interface_events := (3, 4) }) ]).1 = false :=
  (tethering_check_ap_true_iff 4 _).2.1 ⟨_, List.mem_cons_of_mem _ (List.mem_cons_self _ _), rfl⟩

/-- C2 as stated fails: on two valid interfaces of the same name, the second
AP-capable, the predicate returns true and chooses the second, but issues no
request for the first. -/
theorem check_ap_same_name_not_removed :
    (tethering_check_ap 4 same_name_ifaces).1 = true ∧
    ∃ c, (same_name_ifaces.filter
        (fun e => e.2.supplicant_interface.caps_modes &&& 4 != 0)).getLast? = some c ∧
      (tethering_check_ap 4 same_name_ifaces).2 ≠
        (same_name_ifaces.filter (fun e => decide (e ≠ c))).map
          (fun e => e.2.supplicant_interface.path) := by
  refine ⟨by decide, same_name_ifaces.get ⟨1, by decide⟩, by decide, by decide⟩

/-- C2, amended: when `tethering_check_ap` returns true, the chosen interface
being the last AP-capable one in iteration order, the removal requests are
exactly one request, targeting its path, for each tracked interface whose name
differs from the name of the chosen one, in iteration order; none for the
chosen one. When the names of the tracked interfaces are pairwise distinct
these are the tracked interfaces other than the chosen one. -/
theorem tethering_check_ap_removals (AP : Nat) (ifaces : GHashTable)
    (h : (tethering_check_ap AP ifaces).1 = true) :
    ∃ c, (ifaces.filter
        (fun e => e.2.supplicant_interface.caps_modes &&& AP != 0)).getLast? = some c ∧
      (tethering_check_ap AP ifaces).2 =
        (ifaces.filter (fun e =>
          e.2.supplicant_interface.ifname != c.2.supplicant_interface.ifname)).map
          (fun e => e.2.supplicant_interface.path) ∧
      ((ifaces.map (fun e => e.2.supplicant_interface.ifname)).Nodup →
        (tethering_check_ap AP ifaces).2 =
          (ifaces.filter (fun e => decide (e ≠ c))).map (fun e => e.2.supplicant_interface.path)) := by
  have hall := ((tethering_check_ap_fst AP ifaces).mp h).1
  rw [tethering_check_ap_of_all_valid AP ifaces hall] at h ⊢
  cases hl : (ifaces.filter
      (fun e => e.2.supplicant_interface.caps_modes &&& AP != 0)).getLast? with
  | none => rw [hl] at h; simp at h
  | some c =>
    have hc : c ∈ ifaces := (List.mem_filter.mp (List.mem_of_getLast?_eq_some hl)).1
    have hreq : check_ap_remove c.2.supplicant_interface.ifname ifaces =
        (ifaces.filter (fun e =>
          e.2.supplicant_interface.ifname != c.2.supplicant_interface.ifname)).map
          (fun e => e.2.supplicant_interface.path) := by
      rw [check_ap_remove_eq]
      congr 1
      apply List.filter_congr
      intro e he
      simp [hall e he]
    refine ⟨c, rfl, hreq, fun hnd => ?_⟩
    simp only
    rw [hreq]
    congr 1
    apply List.filter_congr
    intro e he
    by_cases hec : e = c
    · subst hec
      simp
    · have hne : e.2.supplicant_interface.ifname ≠ c.2.supplicant_interface.ifname :=
        fun hn => hec (List.inj_on_of_nodup_map hnd he hc hn)
      have h1 : (e.2.supplicant_interface.ifname != c.2.supplicant_interface.ifname) = true := by
        simpa using hne
      rw [h1]
      simp [hec]

/-- C2, amended, on two valid interfaces of different names. -/
theorem tethering_check_ap_removals_witness :
    ∃ c, ([ ("/a", ({ supplicant_interface :=
                        { path := "/a", ifname := "ap0", valid := true, caps_modes := 4 },
                      interface_events := (1, 2) } : TetheringWaitInterface)),
            ("/b", { supplicant_interface :=
                       { path := "/b", ifname := "wlan0", valid := true, caps_modes := 1 },
                     interface_events := (3, 4) }) ].filter
        (fun e => e.2.supplicant_interface.caps_modes &&& 4 != 0)).getLast? = some c ∧
      (tethering_check_ap 4
        [ ("/a", { supplicant_interface :=
                     { path := "/a", ifname := "ap0", valid := true, caps_modes := 4 },
                   interface_events := (1, 2) }),
          ("/b", { supplicant_interface :=
                     { path := "/b", ifname := "wlan0", valid := true, caps_modes := 1 },
                   interface_events := (3, 4) }) ]).2 = ["/b"] := by
  obtain ⟨c, h1, h2, _⟩ := tethering_check_ap_removals 4
    [ ("/a", { supplicant_interface :=
                 { path := "/a", ifname := "ap0", valid := true, caps_modes := 4 },
               interface_events := (1, 2) }),
      ("/b", { supplicant_interface :=
                 { path := "/b", ifname := "wlan0", valid := true, caps_modes := 1 },
               interface_events := (3, 4) }) ] (by decide)
  exact ⟨c, h1, by decide⟩

/-- C8: when `tethering_check_ap` returns false it has issued no removal
request, and a re-evaluation of the predicate by `tethering_wifi_check` leaves
the table, the wait context and the state as they were. -/
theorem tethering_check_ap_false_no_effect (AP : Nat) (ifaces : GHashTable)
    (h : (tethering_check_ap AP ifaces).1 = false) :
    (tethering_check_ap AP ifaces).2 = [] ∧
    ∀ (st : State) (wait : TetheringWait),
      wait.check = some (tethering_check_ap AP) → wait.ifaces = ifaces →
      tethering_wifi_check st wait = (st, wait) := by
  have h2 := tethering_check_ap_false_snd AP ifaces h
  refine ⟨h2, fun st wait hc hi => ?_⟩
  unfold tethering_wifi_check
  rw [hc]
  simp only [hi, h, h2, List.map_nil, emit_nil, Bool.false_eq_true, if_false]

/-- C8, on a table with one valid station interface. -/
theorem tethering_check_ap_false_no_effect_witness :
    (tethering_check_ap 4 station_only_ifaces).1 = false ∧
    (tethering_check_ap 4 station_only_ifaces).2 = [] :=
  ⟨by decide, (tethering_check_ap_false_no_effect 4 station_only_ifaces (by decide)).1⟩

/-! ## Refresh: theorems -/

/-- C3 as stated fails: with a valid supplicant whose interface list is `NULL`
the refresh leaves a tracked path in the table. -/
theorem update_interfaces_null_list_keeps_stale :
    null_list_state.tethering_supplicant.valid = true ∧
    ¬ (∀ p, p ∈ (tethering_wifi_wait_update_interfaces null_list_state
          station_only_ifaces).2.map Prod.fst ↔
        p ∈ null_list_state.tethering_supplicant.interfaces.getD []) := by
  refine ⟨rfl, fun h => ?_⟩
  have h1 := (h "/b").mp (by
    simp [tethering_wifi_wait_update_interfaces, null_list_state, station_only_ifaces])
  simp [null_list_state] at h1

/-- C3, amended: for every table and every valid supplicant that reports an
interface list, empty or not, after the refresh the key set of the table is
exactly the set of listed paths; when the list is `NULL` the refresh leaves the
table and the state as they were. -/
theorem update_interfaces_key_set (st : State) (t : GHashTable)
    (hv : st.tethering_supplicant.valid = true) :
    (∀ ifaces, st.tethering_supplicant.interfaces = some ifaces →
      ∀ p, p ∈ (tethering_wifi_wait_update_interfaces st t).2.map Prod.fst ↔ p ∈ ifaces) ∧
    (st.tethering_supplicant.interfaces = none →
      tethering_wifi_wait_update_interfaces st t = (st, t)) := by
  refine ⟨fun ifaces hi p => update_interfaces_keys st t ifaces hv hi p, fun hi => ?_⟩
  unfold tethering_wifi_wait_update_interfaces
  simp [hv, hi]

/-- C3, amended, on a table that tracks `/b` while the supplicant lists `/a` and `/b`. -/
theorem update_interfaces_key_set_witness :
    two_interfaces_state.tethering_supplicant.valid = true ∧
    ∀ p, p ∈ (tethering_wifi_wait_update_interfaces two_interfaces_state
        station_only_ifaces).2.map Prod.fst ↔ p ∈ ["/a", "/b"] :=
  ⟨rfl, (update_interfaces_key_set two_interfaces_state station_only_ifaces rfl).1 _ rfl⟩

/-- C9: the refresh is idempotent. For every table and every supplicant, a
second refresh with no change of the supplicant in between returns the table
and the state of the first: the entries, their interface objects and handler
ids are the same, and nothing is added to the log, so that nothing is
acquired, registered or released. -/
theorem update_interfaces_idempotent (st : State) (t : GHashTable) :
    tethering_wifi_wait_update_interfaces (tethering_wifi_wait_update_interfaces st t).1
        (tethering_wifi_wait_update_interfaces st t).2 =
      tethering_wifi_wait_update_interfaces st t ∧
    (tethering_wifi_wait_update_interfaces (tethering_wifi_wait_update_interfaces st t).1
        (tethering_wifi_wait_update_interfaces st t).2).1.log =
      (tethering_wifi_wait_update_interfaces st t).1.log := by
  have h := update_interfaces_idem st t
  exact ⟨h, by rw [h]⟩

/-! ## The notifier callback: theorems -/

/-- C7: `tethering_command` fails exactly when the device cannot be opened or
the write does not report one byte; then `tethering_changed_notify` returns the
state it was given, for both values of the flag: `tethering_wait` is not
called, no session is created, and an active session keeps its predicate and
its loop. -/
theorem tethering_changed_notify_command_failed (run : State → State) (AP : Nat) (on_ : Bool)
    (dev : CmdDevNode) (st : State) (cmd : Char) :
    (tethering_command dev cmd = false ↔ dev.fd < 0 ∨ dev.written ≠ 1) ∧
    (dev.fd < 0 ∨ dev.written ≠ 1 → tethering_changed_notify run AP on_ dev st = st) := by
  have hc : ∀ c, tethering_command dev c = false ↔ dev.fd < 0 ∨ dev.written ≠ 1 := by
    intro c
    unfold tethering_command
    by_cases h1 : dev.fd ≥ 0
    · by_cases h2 : dev.written = 1
      · simp [h1, h2]
      · simp [h1, h2]
    · simp [h1]
      exact Or.inl (by omega)
  refine ⟨hc cmd, fun h => ?_⟩
  unfold tethering_changed_notify
  rw [(hc CMD_AP_MODE).mpr h, (hc CMD_STA_MODE).mpr h]
  simp

/-- C7, with a write that reports no byte while a session is active. -/
theorem tethering_changed_notify_command_failed_witness :
    tethering_changed_notify (fun s => s) 4 false ⟨3, 0⟩ waiting_state = waiting_state :=
  (tethering_changed_notify_command_failed (fun s => s) 4 false ⟨3, 0⟩ waiting_state 'S').2
    (Or.inr (by decide))

/-! ## The wait coordinator: theorems -/

/-- C4: a call of `tethering_wait` made while a session is active only
replaces the predicate of that session and, when the new predicate is none,
asks its loop to quit: the log, the id allocator, the table, the timeout id
and the supplicant handler ids are as before, so no second session is created.
Consequently, in every state reached from the entry of the loop by dispatching
events, requests of the host included, the slot is occupied and exactly one
supplicant reference and one main loop are held. -/
theorem tethering_wait_while_waiting :
    (∀ (run : State → State) (check : Option TetheringWaitCheckFunc) (st : State)
        (wait : TetheringWait), st.tethering_waiting = some wait →
      ∃ wait', tethering_wait run check st = { st with tethering_waiting := some wait' } ∧
        wait'.check = check ∧ wait'.ifaces = wait.ifaces ∧
        wait'.timeout_id = wait.timeout_id ∧
        wait'.supplicant_events = wait.supplicant_events ∧
        (check = none → wait'.loop.is_running = false) ∧
        (check ≠ none → wait'.loop = wait.loop)) ∧
    (∀ (AP : Nat) (check : TetheringWaitCheckFunc) (st : State) (evs : List Event),
      ∃ wait delta,
        (evs.foldl (fun s e => dispatch AP e s)
          (tethering_wait_arm check (tethering_wait_seed st).2
            (tethering_wait_test check (tethering_wait_seed st).1
              (tethering_wait_seed st).2).2)).tethering_waiting = some wait ∧
        (evs.foldl (fun s e => dispatch AP e s)
          (tethering_wait_arm check (tethering_wait_seed st).2
            (tethering_wait_test check (tethering_wait_seed st).1
              (tethering_wait_seed st).2).2)).log = st.log ++ delta ∧
        held Res.supplicant_ref delta = some 1 ∧ held Res.main_loop delta = some 1) := by
  refine ⟨fun run check st wait hw => ?_, fun AP check st evs => ?_⟩
  · refine ⟨_, tethering_wait_active run check st wait hw, rfl, rfl, rfl, rfl, ?_, ?_⟩
    · intro h; subst h; rfl
    · intro h
      cases check with
      | none => exact absurd rfl h
      | some c => rfl
  · exact wait_inv_one_session (dispatch_foldl_inv AP evs (tethering_wait_arm_inv check st))

/-- C4, with a request without predicate made while a session waits. -/
theorem tethering_wait_while_waiting_witness :
    ∃ wait', tethering_wait (fun s => s) none waiting_state =
        { waiting_state with tethering_waiting := some wait' } ∧
      wait'.ifaces = station_only_ifaces ∧ wait'.loop.is_running = false := by
  obtain ⟨w, h1, _, h3, _, _, h6, _⟩ :=
    tethering_wait_while_waiting.1 (fun s => s) none waiting_state station_only_wait rfl
  exact ⟨w, h1, h3, h6 rfl⟩

/-- C5: a call of `tethering_wait` with a predicate made in the idle state
enters the loop if and only if, after the seeding refresh, the supplicant is
not valid or the predicate returns false on the seeded table. When it does,
the loop runs from a state in which the session occupies the slot with the
predicate, the seeded table and a running loop, the timeout is added with a
non-zero id and the two supplicant handlers are registered. Otherwise the
result does not depend on the loop, the slot is empty on return, and the calls
made are the supplicant reference, calls on interface objects and removal
requests, and the release of the supplicant reference. With a valid supplicant
that lists `/a`, valid and AP-capable, and `/b`, valid and not AP-capable, no
wait is entered and the only removal request is for `/b`. -/
theorem tethering_wait_enters_iff :
    (∀ (check : TetheringWaitCheckFunc) (st : State), st.tethering_waiting = none →
      ((st.tethering_supplicant.valid = false ∨ (check (tethering_wait_seed st).2).1 = false) →
        ∃ armed wait, armed.tethering_waiting = some wait ∧
          wait.check = some check ∧ wait.ifaces = (tethering_wait_seed st).2 ∧
          wait.loop.is_running = true ∧ wait.timeout_id ≠ 0 ∧
          (∃ before, armed.log = before ++
            [Op.main_loop_new, Op.timeout_add wait.timeout_id,
              Op.supplicant_add_handler wait.supplicant_events.1 .VALID,
              Op.supplicant_add_handler wait.supplicant_events.2 .INTERFACES]) ∧
          (∀ run, tethering_wait run (some check) st =
            tethering_wait_finish (tethering_wait_seed st).2 (run armed)) ∧
          ∀ AP trace, ∃ delta,
            (tethering_wait (g_main_loop_run AP trace) (some check) st).log = st.log ++ delta ∧
            Op.timeout_add wait.timeout_id ∈ delta) ∧
      ((st.tethering_supplicant.valid = true ∧ (check (tethering_wait_seed st).2).1 = true) →
        ∃ st', (∀ run, tethering_wait run (some check) st = st') ∧
          st'.tethering_waiting = none ∧
          ∃ ops, st'.log = st.log ++ ([Op.supplicant_ref] ++ ops ++ [Op.supplicant_unref]) ∧
            ∀ op ∈ ops, op.in_loop = true)) ∧
    (∀ trace, (tethering_wait (g_main_loop_run 4 trace) (some (tethering_check_ap 4))
        two_interfaces_state).log =
      [ Op.supplicant_ref,
        Op.interface_new "/a",
        Op.interface_add_handler "/a" 1 .VALID,
        Op.interface_add_handler "/a" 2 .CAPS,
        Op.interface_new "/b",
        Op.interface_add_handler "/b" 3 .VALID,
        Op.interface_add_handler "/b" 4 .CAPS,
        Op.remove_interface "/b",
        Op.interface_remove_handler "/a" 1,
        Op.interface_remove_handler "/a" 2,
        Op.interface_unref "/a",
        Op.interface_remove_handler "/b" 3,
        Op.interface_remove_handler "/b" 4,
        Op.interface_unref "/b",
        Op.supplicant_unref ]) := by
  refine ⟨fun check st hidle => ⟨fun hc => ?_, fun hc => ?_⟩, fun trace => ?_⟩
  · have ht : (tethering_wait_test check (tethering_wait_seed st).1
        (tethering_wait_seed st).2).1 = true := by
      rw [tethering_wait_test_fst, tethering_wait_seed_supplicant]
      rcases hc with h | h <;> simp [h]
    refine ⟨tethering_wait_arm check (tethering_wait_seed st).2
        (tethering_wait_test check (tethering_wait_seed st).1 (tethering_wait_seed st).2).2,
      _, rfl, rfl, rfl, rfl, Nat.succ_ne_zero _,
      ⟨(tethering_wait_test check (tethering_wait_seed st).1 (tethering_wait_seed st).2).2.log,
        ?_⟩, fun run => ?_, fun AP trace => ?_⟩
    · simp [tethering_wait_arm, State.emit, State.fresh]
    · rw [tethering_wait_idle run check st hidle, if_pos ht]
    · rw [tethering_wait_idle _ check st hidle, if_pos ht]
      obtain ⟨_, delta, h2, _, h4⟩ := tethering_wait_finish_spec (tethering_wait_seed st).2
        (g_main_loop_run_inv AP trace (tethering_wait_arm_inv check st)).1
      refine ⟨delta, h2, ?_⟩
      have hm : Op.timeout_add ((tethering_wait_test check (tethering_wait_seed st).1
          (tethering_wait_seed st).2).2.last_id + 1) ∈ delta.filter Op.is_timeout := by
        rcases h4 with h | h <;> rw [h] <;> exact List.mem_cons_self _ _
      exact (List.mem_filter.mp hm).1
  · have ht : ¬ (tethering_wait_test check (tethering_wait_seed st).1
        (tethering_wait_seed st).2).1 = true := by
      rw [tethering_wait_test_fst, tethering_wait_seed_supplicant]
      simp [hc.1, hc.2]
    obtain ⟨h1, ops, h2, h3, _⟩ := tethering_wait_cleanup_spec check st
    refine ⟨_, fun run => by rw [tethering_wait_idle run check st hidle, if_neg ht], ?_,
      ops, h2, h3⟩
    rw [h1]
    unfold tethering_wait_seed
    rw [update_interfaces_waiting]
    exact hidle
  · have ht : ¬ (tethering_wait_test (tethering_check_ap 4)
        (tethering_wait_seed two_interfaces_state).1
        (tethering_wait_seed two_interfaces_state).2).1 = true := by decide
    rw [tethering_wait_idle _ _ _ rfl, if_neg ht]
    decide

/-- C5, on the idle state with a supplicant that is not valid. -/
theorem tethering_wait_enters_iff_witness :
    ∃ armed wait, armed.tethering_waiting = some wait ∧ wait.timeout_id ≠ 0 ∧
      ∀ run, tethering_wait run (some (tethering_check_ap 4)) invalid_supplicant_state =
        tethering_wait_finish (tethering_wait_seed invalid_supplicant_state).2 (run armed) := by
  obtain ⟨armed, wait, h1, _, _, _, h5, _, h7, _⟩ :=
    (tethering_wait_enters_iff.1 (tethering_check_ap 4) invalid_supplicant_state rfl).1
      (Or.inl rfl)
  exact ⟨armed, wait, h1, h5, h7⟩

/-! ## Change notifications: lemmas -/

end Tethering
